import Mathlib

/-!
# The fixed-point math kernel of LVGL: `src/lv_misc/lv_math.c`

A shallow embedding of the four functions of `lv_math.c`
(`lv_trigo_sin`, `lv_bezier3`, `lv_sqrt`, `lv_atan2`) and theorems about them.
The setters of the value and the range of the line meter
(`src/lv_objx/lv_lmeter.c`) are embedded as functions on its extended data.

Conventions of the embedding.

* C unsigned integers are natural numbers reduced modulo `2 ^ w` after every
  operation that can leave the range (`u8`, `u16`, `u32`).
* C signed integers are integers.  Conversions between signed and unsigned
  32-bit values are `toU32` and `toI32` (two's complement).
* `int` and `unsigned int` are taken to be 32 bits wide.
* A table lookup `tab[i]` is `tab.getD i 0`.
-/

namespace LvMath

/-! ## Machine integers -/

/-- Reduction to `uint8_t` / `unsigned char`. -/
def u8 (n : Nat) : Nat := n % 2 ^ 8

/-- Reduction to `uint16_t`. -/
def u16 (n : Nat) : Nat := n % 2 ^ 16

/-- Reduction to `uint32_t` / 32-bit `unsigned int`. -/
def u32 (n : Nat) : Nat := n % 2 ^ 32

/-- Conversion of a signed value to `uint32_t`: the residue modulo `2 ^ 32`. -/
def toU32 (z : Int) : Nat := (z % 2 ^ 32).toNat

/-- Conversion of a `uint32_t` value to `int32_t` (two's complement). -/
def toI32 (n : Nat) : Int :=
  if n % 2 ^ 32 < 2 ^ 31 then ((n % 2 ^ 32 : Nat) : Int) else ((n % 2 ^ 32 : Nat) : Int) - 2 ^ 32

/-! ## `lv_trigo_sin` (lv_math.c, lines 29-71) -/

/-- The table `sin0_90_table` (lv_math.c, lines 29-35): 91 entries. -/
def sin0_90_table : List Int := [
  0, 572, 1144, 1715, 2286, 2856, 3425, 3993, 4560, 5126, 5690, 6252, 6813, 7371, 7927, 8481,
  9032, 9580, 10126, 10668, 11207, 11743, 12275, 12803, 13328, 13848, 14364, 14876, 15383,
  15886, 16383, 16876, 17364, 17846, 18323, 18794, 19260, 19720, 20173, 20621, 21062, 21497,
  21925, 22347, 22762, 23170, 23571, 23964, 24351, 24730, 25101, 25465, 25821, 26169, 26509,
  26841, 27165, 27481, 27788, 28087, 28377, 28659, 28932, 29196, 29451, 29697, 29934, 30162,
  30381, 30591, 30791, 30982, 31163, 31335, 31498, 31650, 31794, 31927, 32051, 32165, 32269,
  32364, 32448, 32523, 32587, 32642, 32687, 32722, 32747, 32762, 32767]

/-- The function `lv_trigo_sin` (lv_math.c, lines 50-71).  The parameter is an
`int16_t`; `%` of C truncates towards zero (`Int.tmod`).  Every intermediate
value lies in `[-32767, 32767]`, so no assignment to an `int16_t` wraps. -/
def lv_trigo_sin (angle : Int) : Int :=
  let angle := Int.tmod angle 360
  let angle := if angle < 0 then 360 + angle else angle
  if angle < 90 then
    sin0_90_table.getD angle.toNat 0
  else if angle ≥ 90 ∧ angle < 180 then
    let angle := 180 - angle
    sin0_90_table.getD angle.toNat 0
  else if angle ≥ 180 ∧ angle < 270 then
    let angle := angle - 180;
    -(sin0_90_table.getD angle.toNat 0)
  else
    let angle := 360 - angle;
    -(sin0_90_table.getD angle.toNat 0)

/-- The table index of `lv_trigo_sin` (lv_math.c, lines 53-67): the value of
`angle` at the lookup `sin0_90_table[angle]` of the branch taken. -/
def lv_trigo_sin_index (angle : Int) : Int :=
  let angle := Int.tmod angle 360
  let angle := if angle < 0 then 360 + angle else angle
  if angle < 90 then
    angle
  else if angle ≥ 90 ∧ angle < 180 then
    180 - angle
  else if angle ≥ 180 ∧ angle < 270 then
    angle - 180
  else
    360 - angle

/-! ## `lv_bezier3` (lv_math.c, lines 82-96) -/

/-- The function `lv_bezier3` (lv_math.c, lines 82-96).  `t` is a `uint32_t`
(`t < 2 ^ 32`), the control values are `int32_t`; they are converted to
`uint32_t` by the multiplications, every product and sum is reduced modulo
`2 ^ 32`, and the `uint32_t` sum is converted to the `int32_t` result. -/
def lv_bezier3 (t : Nat) (u0 u1 u2 u3 : Int) : Int :=
  let t_rem := u32 (1024 + 2 ^ 32 - t)
  let t_rem2 := u32 (t_rem * t_rem) >>> 10
  let t_rem3 := u32 (t_rem2 * t_rem) >>> 10
  let t2 := u32 (t * t) >>> 10
  let t3 := u32 (t2 * t) >>> 10
  let v1 := u32 (t_rem3 * toU32 u0) >>> 10
  let v2 := u32 (u32 (u32 (3 * t_rem2) * t) * toU32 u1) >>> 20
  let v3 := u32 (u32 (u32 (3 * t_rem) * t2) * toU32 u2) >>> 20
  let v4 := u32 (t3 * toU32 u3) >>> 10
  toI32 (u32 (u32 (u32 (v1 + v2) + v3) + v4))

/-- The computation of `lv_bezier3` (lv_math.c, lines 84-95) is free of
wrap-around: `1024 - t` does not underflow, and every product and every sum,
before its reduction to 32 bits, is below `2 ^ 32`. -/
def lv_bezier3_exact (t : Nat) (u0 u1 u2 u3 : Int) : Bool :=
  let t_rem := u32 (1024 + 2 ^ 32 - t)
  let t_rem2 := u32 (t_rem * t_rem) >>> 10
  let t_rem3 := u32 (t_rem2 * t_rem) >>> 10
  let t2 := u32 (t * t) >>> 10
  let t3 := u32 (t2 * t) >>> 10
  let v1 := u32 (t_rem3 * toU32 u0) >>> 10
  let v2 := u32 (u32 (u32 (3 * t_rem2) * t) * toU32 u1) >>> 20
  let v3 := u32 (u32 (u32 (3 * t_rem) * t2) * toU32 u2) >>> 20
  let v4 := u32 (t3 * toU32 u3) >>> 10
  decide (t ≤ 1024) &&
  decide (t_rem * t_rem < 2 ^ 32) && decide (t_rem2 * t_rem < 2 ^ 32) &&
  decide (t * t < 2 ^ 32) && decide (t2 * t < 2 ^ 32) &&
  decide (t_rem3 * toU32 u0 < 2 ^ 32) &&
  decide (3 * t_rem2 < 2 ^ 32) && decide (3 * t_rem2 * t < 2 ^ 32) &&
  decide (3 * t_rem2 * t * toU32 u1 < 2 ^ 32) &&
  decide (3 * t_rem < 2 ^ 32) && decide (3 * t_rem * t2 < 2 ^ 32) &&
  decide (3 * t_rem * t2 * toU32 u2 < 2 ^ 32) &&
  decide (t3 * toU32 u3 < 2 ^ 32) &&
  decide (v1 + v2 < 2 ^ 32) && decide (v1 + v2 + v3 < 2 ^ 32) &&
  decide (v1 + v2 + v3 + v4 < 2 ^ 32)

/-! ## `lv_sqrt` (lv_math.c, lines 97-232) -/

/-- The constant `BITSPERLONG` (lv_math.c, line 97). -/
def BITSPERLONG : Nat := 32

/-- The macro `TOP2BITS` (lv_math.c, line 99). -/
def TOP2BITS (x : Nat) : Nat := (x &&& (3 <<< (BITSPERLONG - 2))) >>> (BITSPERLONG - 2)

/-- The table `ci` of `lv_sqrt` (lv_math.c, lines 112-152): 1024 entries. -/
def ci : List Nat := [
  1, 1, 1, 2, 2, 2, 2, 2, 3, 3, 3, 3, 3, 3, 3, 4, 4, 4, 4, 4, 4, 4, 4, 4, 5, 5, 5, 5, 5, 5, 5,
  5, 5, 5, 5, 6, 6, 6, 6, 6, 6, 6, 6, 6, 6, 6, 6, 6, 7, 7, 7, 7, 7, 7, 7, 7, 7, 7, 7, 7, 7, 7,
  7, 8, 8, 8, 8, 8, 8, 8, 8, 8, 8, 8, 8, 8, 8, 8, 8, 8, 9, 9, 9, 9, 9, 9, 9, 9, 9, 9, 9, 9, 9,
  9, 9, 9, 9, 9, 9, 10, 10, 10, 10, 10, 10, 10, 10, 10, 10, 10, 10, 10, 10, 10, 10, 10, 10, 10,
  10, 10, 11, 11, 11, 11, 11, 11, 11, 11, 11, 11, 11, 11, 11, 11, 11, 11, 11, 11, 11, 11, 11,
  11, 11, 12, 12, 12, 12, 12, 12, 12, 12, 12, 12, 12, 12, 12, 12, 12, 12, 12, 12, 12, 12, 12,
  12, 12, 12, 12, 13, 13, 13, 13, 13, 13, 13, 13, 13, 13, 13, 13, 13, 13, 13, 13, 13, 13, 13,
  13, 13, 13, 13, 13, 13, 13, 13, 14, 14, 14, 14, 14, 14, 14, 14, 14, 14, 14, 14, 14, 14, 14,
  14, 14, 14, 14, 14, 14, 14, 14, 14, 14, 14, 14, 14, 14, 15, 15, 15, 15, 15, 15, 15, 15, 15,
  15, 15, 15, 15, 15, 15, 15, 15, 15, 15, 15, 15, 15, 15, 15, 15, 15, 15, 15, 15, 15, 15, 16,
  16, 16, 16, 16, 16, 16, 16, 16, 16, 16, 16, 16, 16, 16, 16, 16, 16, 16, 16, 16, 16, 16, 16,
  16, 16, 16, 16, 16, 16, 16, 16, 16, 17, 17, 17, 17, 17, 17, 17, 17, 17, 17, 17, 17, 17, 17,
  17, 17, 17, 17, 17, 17, 17, 17, 17, 17, 17, 17, 17, 17, 17, 17, 17, 17, 17, 17, 17, 18, 18,
  18, 18, 18, 18, 18, 18, 18, 18, 18, 18, 18, 18, 18, 18, 18, 18, 18, 18, 18, 18, 18, 18, 18,
  18, 18, 18, 18, 18, 18, 18, 18, 18, 18, 18, 18, 19, 19, 19, 19, 19, 19, 19, 19, 19, 19, 19,
  19, 19, 19, 19, 19, 19, 19, 19, 19, 19, 19, 19, 19, 19, 19, 19, 19, 19, 19, 19, 19, 19, 19,
  19, 19, 19, 19, 19, 20, 20, 20, 20, 20, 20, 20, 20, 20, 20, 20, 20, 20, 20, 20, 20, 20, 20,
  20, 20, 20, 20, 20, 20, 20, 20, 20, 20, 20, 20, 20, 20, 20, 20, 20, 20, 20, 20, 20, 20, 20,
  21, 21, 21, 21, 21, 21, 21, 21, 21, 21, 21, 21, 21, 21, 21, 21, 21, 21, 21, 21, 21, 21, 21,
  21, 21, 21, 21, 21, 21, 21, 21, 21, 21, 21, 21, 21, 21, 21, 21, 21, 21, 21, 21, 22, 22, 22,
  22, 22, 22, 22, 22, 22, 22, 22, 22, 22, 22, 22, 22, 22, 22, 22, 22, 22, 22, 22, 22, 22, 22,
  22, 22, 22, 22, 22, 22, 22, 22, 22, 22, 22, 22, 22, 22, 22, 22, 22, 22, 22, 23, 23, 23, 23,
  23, 23, 23, 23, 23, 23, 23, 23, 23, 23, 23, 23, 23, 23, 23, 23, 23, 23, 23, 23, 23, 23, 23,
  23, 23, 23, 23, 23, 23, 23, 23, 23, 23, 23, 23, 23, 23, 23, 23, 23, 23, 23, 23, 24, 24, 24,
  24, 24, 24, 24, 24, 24, 24, 24, 24, 24, 24, 24, 24, 24, 24, 24, 24, 24, 24, 24, 24, 24, 24,
  24, 24, 24, 24, 24, 24, 24, 24, 24, 24, 24, 24, 24, 24, 24, 24, 24, 24, 24, 24, 24, 24, 24,
  25, 25, 25, 25, 25, 25, 25, 25, 25, 25, 25, 25, 25, 25, 25, 25, 25, 25, 25, 25, 25, 25, 25,
  25, 25, 25, 25, 25, 25, 25, 25, 25, 25, 25, 25, 25, 25, 25, 25, 25, 25, 25, 25, 25, 25, 25,
  25, 25, 25, 25, 25, 26, 26, 26, 26, 26, 26, 26, 26, 26, 26, 26, 26, 26, 26, 26, 26, 26, 26,
  26, 26, 26, 26, 26, 26, 26, 26, 26, 26, 26, 26, 26, 26, 26, 26, 26, 26, 26, 26, 26, 26, 26,
  26, 26, 26, 26, 26, 26, 26, 26, 26, 26, 26, 26, 27, 27, 27, 27, 27, 27, 27, 27, 27, 27, 27,
  27, 27, 27, 27, 27, 27, 27, 27, 27, 27, 27, 27, 27, 27, 27, 27, 27, 27, 27, 27, 27, 27, 27,
  27, 27, 27, 27, 27, 27, 27, 27, 27, 27, 27, 27, 27, 27, 27, 27, 27, 27, 27, 27, 27, 28, 28,
  28, 28, 28, 28, 28, 28, 28, 28, 28, 28, 28, 28, 28, 28, 28, 28, 28, 28, 28, 28, 28, 28, 28,
  28, 28, 28, 28, 28, 28, 28, 28, 28, 28, 28, 28, 28, 28, 28, 28, 28, 28, 28, 28, 28, 28, 28,
  28, 28, 28, 28, 28, 28, 28, 28, 28, 29, 29, 29, 29, 29, 29, 29, 29, 29, 29, 29, 29, 29, 29,
  29, 29, 29, 29, 29, 29, 29, 29, 29, 29, 29, 29, 29, 29, 29, 29, 29, 29, 29, 29, 29, 29, 29,
  29, 29, 29, 29, 29, 29, 29, 29, 29, 29, 29, 29, 29, 29, 29, 29, 29, 29, 29, 29, 29, 29, 30,
  30, 30, 30, 30, 30, 30, 30, 30, 30, 30, 30, 30, 30, 30, 30, 30, 30, 30, 30, 30, 30, 30, 30,
  30, 30, 30, 30, 30, 30, 30, 30, 30, 30, 30, 30, 30, 30, 30, 30, 30, 30, 30, 30, 30, 30, 30,
  30, 30, 30, 30, 30, 30, 30, 30, 30, 30, 30, 30, 30, 30, 31, 31, 31, 31, 31, 31, 31, 31, 31,
  31, 31, 31, 31, 31, 31, 31, 31, 31, 31, 31, 31, 31, 31, 31, 31, 31, 31, 31, 31, 31, 31, 31,
  31, 31, 31, 31, 31, 31, 31, 31, 31, 31, 31, 31, 31, 31, 31, 31, 31, 31, 31, 31, 31, 31, 31,
  31, 31, 31, 31, 31, 31, 31, 31, 32]

/-- The table `cf` of `lv_sqrt` (lv_math.c, lines 154-201): 1024 entries. -/
def cf : List Nat := [
  0, 106, 187, 0, 60, 115, 165, 212, 0, 42, 81, 119, 155, 190, 223, 0, 32, 62, 92, 121, 149,
  177, 204, 230, 0, 25, 50, 75, 99, 122, 145, 168, 191, 213, 235, 0, 21, 42, 63, 83, 103, 123,
  143, 162, 181, 200, 219, 238, 0, 18, 36, 54, 72, 89, 107, 124, 141, 158, 174, 191, 207, 224,
  240, 0, 16, 32, 47, 63, 78, 94, 109, 124, 139, 154, 169, 184, 198, 213, 227, 242, 0, 14, 28,
  42, 56, 70, 84, 97, 111, 125, 138, 151, 165, 178, 191, 204, 217, 230, 243, 0, 13, 25, 38, 51,
  63, 76, 88, 100, 113, 125, 137, 149, 161, 173, 185, 197, 209, 221, 233, 244, 0, 12, 23, 35,
  46, 58, 69, 80, 92, 103, 114, 125, 136, 147, 158, 169, 180, 191, 202, 213, 224, 235, 245, 0,
  11, 21, 32, 42, 53, 63, 74, 84, 95, 105, 115, 125, 136, 146, 156, 166, 176, 186, 196, 206,
  216, 226, 236, 246, 0, 10, 20, 29, 39, 49, 59, 68, 78, 87, 97, 107, 116, 126, 135, 145, 154,
  163, 173, 182, 191, 201, 210, 219, 228, 238, 247, 0, 9, 18, 27, 36, 45, 54, 63, 72, 81, 90,
  99, 108, 117, 126, 135, 143, 152, 161, 170, 178, 187, 196, 204, 213, 222, 230, 239, 247, 0, 9,
  17, 26, 34, 42, 51, 59, 68, 76, 84, 93, 101, 109, 118, 126, 134, 142, 151, 159, 167, 175, 183,
  191, 200, 208, 216, 224, 232, 240, 248, 0, 8, 16, 24, 32, 40, 48, 56, 64, 71, 79, 87, 95, 103,
  111, 118, 126, 134, 142, 149, 157, 165, 172, 180, 188, 195, 203, 211, 218, 226, 233, 241, 248,
  0, 8, 15, 23, 30, 37, 45, 52, 60, 67, 75, 82, 89, 97, 104, 112, 119, 126, 133, 141, 148, 155,
  163, 170, 177, 184, 192, 199, 206, 213, 220, 227, 235, 242, 249, 0, 7, 14, 21, 28, 35, 42, 50,
  57, 64, 71, 78, 85, 92, 99, 105, 112, 119, 126, 133, 140, 147, 154, 161, 168, 174, 181, 188,
  195, 202, 209, 215, 222, 229, 236, 243, 249, 0, 7, 13, 20, 27, 34, 40, 47, 54, 60, 67, 74, 80,
  87, 93, 100, 107, 113, 120, 126, 133, 139, 146, 153, 159, 166, 172, 179, 185, 192, 198, 205,
  211, 217, 224, 230, 237, 243, 250, 0, 6, 13, 19, 26, 32, 38, 45, 51, 57, 64, 70, 76, 83, 89,
  95, 101, 108, 114, 120, 126, 133, 139, 145, 151, 158, 164, 170, 176, 182, 189, 195, 201, 207,
  213, 219, 225, 232, 238, 244, 250, 0, 6, 12, 18, 24, 30, 36, 42, 49, 55, 61, 67, 73, 79, 85,
  91, 97, 103, 109, 115, 121, 127, 132, 138, 144, 150, 156, 162, 168, 174, 180, 186, 192, 198,
  203, 209, 215, 221, 227, 233, 239, 244, 250, 0, 6, 12, 17, 23, 29, 35, 41, 46, 52, 58, 64, 69,
  75, 81, 87, 92, 98, 104, 109, 115, 121, 127, 132, 138, 144, 149, 155, 161, 166, 172, 178, 183,
  189, 194, 200, 206, 211, 217, 223, 228, 234, 239, 245, 250, 0, 6, 11, 17, 22, 28, 33, 39, 44,
  50, 55, 61, 66, 72, 77, 83, 88, 94, 99, 105, 110, 116, 121, 127, 132, 138, 143, 148, 154, 159,
  165, 170, 175, 181, 186, 192, 197, 202, 208, 213, 219, 224, 229, 235, 240, 245, 251, 0, 5, 11,
  16, 21, 27, 32, 37, 43, 48, 53, 58, 64, 69, 74, 79, 85, 90, 95, 101, 106, 111, 116, 121, 127,
  132, 137, 142, 148, 153, 158, 163, 168, 174, 179, 184, 189, 194, 199, 205, 210, 215, 220, 225,
  230, 235, 241, 246, 251, 0, 5, 10, 15, 20, 26, 31, 36, 41, 46, 51, 56, 61, 66, 71, 76, 81, 86,
  92, 97, 102, 107, 112, 117, 122, 127, 132, 137, 142, 147, 152, 157, 162, 167, 172, 177, 182,
  187, 192, 197, 202, 207, 212, 216, 221, 226, 231, 236, 241, 246, 251, 0, 5, 10, 15, 20, 25,
  29, 34, 39, 44, 49, 54, 59, 64, 69, 73, 78, 83, 88, 93, 98, 103, 107, 112, 117, 122, 127, 132,
  136, 141, 146, 151, 156, 161, 165, 170, 175, 180, 185, 189, 194, 199, 204, 208, 213, 218, 223,
  227, 232, 237, 242, 247, 251, 0, 5, 9, 14, 19, 24, 28, 33, 38, 43, 47, 52, 57, 61, 66, 71, 75,
  80, 85, 89, 94, 99, 104, 108, 113, 118, 122, 127, 131, 136, 141, 145, 150, 155, 159, 164, 169,
  173, 178, 182, 187, 192, 196, 201, 206, 210, 215, 219, 224, 229, 233, 238, 242, 247, 251, 0,
  5, 9, 14, 18, 23, 27, 32, 36, 41, 46, 50, 55, 59, 64, 68, 73, 77, 82, 86, 91, 95, 100, 104,
  109, 113, 118, 122, 127, 131, 136, 140, 145, 149, 154, 158, 163, 167, 172, 176, 181, 185, 189,
  194, 198, 203, 207, 212, 216, 221, 225, 229, 234, 238, 243, 247, 252, 0, 4, 9, 13, 18, 22, 26,
  31, 35, 40, 44, 48, 53, 57, 62, 66, 70, 75, 79, 83, 88, 92, 96, 101, 105, 110, 114, 118, 123,
  127, 131, 136, 140, 144, 149, 153, 157, 162, 166, 170, 175, 179, 183, 187, 192, 196, 200, 205,
  209, 213, 218, 222, 226, 230, 235, 239, 243, 247, 252, 0, 4, 9, 13, 17, 21, 26, 30, 34, 38,
  43, 47, 51, 55, 60, 64, 68, 72, 76, 81, 85, 89, 93, 98, 102, 106, 110, 114, 119, 123, 127,
  131, 135, 140, 144, 148, 152, 156, 160, 165, 169, 173, 177, 181, 185, 190, 194, 198, 202, 206,
  210, 215, 219, 223, 227, 231, 235, 239, 244, 248, 252, 0, 4, 8, 12, 16, 21, 25, 29, 33, 37,
  41, 45, 49, 53, 58, 62, 66, 70, 74, 78, 82, 86, 90, 94, 98, 103, 107, 111, 115, 119, 123, 127,
  131, 135, 139, 143, 147, 151, 155, 159, 163, 168, 172, 176, 180, 184, 188, 192, 196, 200, 204,
  208, 212, 216, 220, 224, 228, 232, 236, 240, 244, 248, 252, 0]

/-- The result type `lv_sqrt_res_t`: integer part `i` and fraction part `f`.
The declaration is in `lv_math.h`; the widths of the two fields are the
parameters `wi` and `wf` of `lv_sqrt`. -/
structure lv_sqrt_res_t where
  i : Nat
  f : Nat
deriving DecidableEq

/-- The local variables of the loop of `lv_sqrt` (lv_math.c, lines 215-217),
with the input `x`, which the loop shifts. -/
structure SqrtLoop where
  x : Nat
  a : Nat
  r : Nat
  e : Nat
deriving DecidableEq

/-- One pass through the body of the loop of `lv_sqrt` (lv_math.c, lines
221-227), all variables being `uint32_t`.  In the branch `r >= e` the
subtraction `r -= e` cannot wrap. -/
def sqrt_iter (s : SqrtLoop) : SqrtLoop :=
  let r := u32 (u32 (s.r <<< 2) + TOP2BITS s.x)
  let x := u32 (s.x <<< 2)
  let a := u32 (s.a <<< 1)
  let e := u32 (u32 (a <<< 1) + 1)
  if r ≥ e then
    { x := x, a := u32 (a + 1), r := r - e, e := e }
  else
    { x := x, a := a, r := r, e := e }

/-- The loop of `lv_sqrt` (lv_math.c, line 220) run for `n` passes. -/
def sqrt_loop : Nat → SqrtLoop → SqrtLoop
  | 0, s => s
  | n + 1, s => sqrt_loop n (sqrt_iter s)

/-- The function `lv_sqrt` (lv_math.c, lines 101-232) for a `uint32_t` input
`x`.  The result is written to fields of `wi` and `wf` bits. -/
def lv_sqrt (wi wf : Nat) (x : Nat) : lv_sqrt_res_t :=
  if x = 0 then
    { i := 0 % 2 ^ wi, f := 0 % 2 ^ wf }
  else if x ≤ 64 then
    let x := x - 1
    { i := ci.getD x 0 % 2 ^ wi, f := cf.getD x 0 % 2 ^ wf }
  else
    let s := sqrt_loop (BITSPERLONG / 2 + 8) { x := x, a := 0, r := 0, e := 0 }
    { i := (s.a >>> 8) % 2 ^ wi, f := (s.a &&& 0xFF) % 2 ^ wf }

/-- The fixed-point value `256 * i + f` of a result of `lv_sqrt`: the square
root in units of `1 / 256`. -/
def sqrt_value (q : lv_sqrt_res_t) : Nat := 256 * q.i + q.f

/-- The body of the loop of `lv_sqrt` computes its remainder, accumulator and
trial value without wrap-around at the state `s`: the value of each shift and
sum of lines 221-226 on `r`, `a` and `e`, before its reduction to 32 bits, is
below `2 ^ 32`.  (In the branch `r >= e` the difference `r - e` cannot wrap.) -/
abbrev sqrt_iter_exact (s : SqrtLoop) : Prop :=
  s.r <<< 2 < 2 ^ 32 ∧ (s.r <<< 2) + TOP2BITS s.x < 2 ^ 32 ∧
  s.a <<< 1 < 2 ^ 32 ∧ ((s.a <<< 1) <<< 1) + 1 < 2 ^ 32 ∧ (s.a <<< 1) + 1 < 2 ^ 32

/-- The invariant of the loop of `lv_sqrt` after `k` passes on the input `x0`:
the 64-bit number `x0 * 4 ^ k` has its low word in `x` and its high word split
as `a * a + r` with `r ≤ 2 * a`, so that `a` is the integer square root of the
high word. -/
abbrev SqrtInv (x0 k : Nat) (s : SqrtLoop) : Prop :=
  s.x = x0 * 4 ^ k % 2 ^ 32 ∧ s.a * s.a + s.r = x0 * 4 ^ k / 2 ^ 32 ∧
  s.r ≤ 2 * s.a ∧ s.a < 2 ^ k

/-! ## `lv_atan2` (lv_math.c, lines 240-313) -/

/-- Step 2 of `lv_atan2` (lv_math.c, lines 283-295): the compensation `comp`
for the value `tempdegree`, both `unsigned char`. -/
def atan2_comp (tempdegree : Nat) : Nat :=
  let comp := 0
  if tempdegree > 22 then
    let comp := if tempdegree ≤ 44 then u8 (comp + 1) else comp
    let comp := if tempdegree ≤ 41 then u8 (comp + 1) else comp
    let comp := if tempdegree ≤ 37 then u8 (comp + 1) else comp
    let comp := if tempdegree ≤ 32 then u8 (comp + 1) else comp
    comp
  else
    let comp := if tempdegree ≥ 2 then u8 (comp + 1) else comp
    let comp := if tempdegree ≥ 6 then u8 (comp + 1) else comp
    let comp := if tempdegree ≥ 10 then u8 (comp + 1) else comp
    let comp := if tempdegree ≥ 15 then u8 (comp + 1) else comp
    comp

/-- The part of `lv_atan2` after the division (lv_math.c, lines 282-312):
compensation, inversion for the octant flag `0x10`, and the quadrant taken
from the sign flags `0x01` (x) and `0x02` (y).  The result is the `uint16_t`
return value. -/
def atan2_finish (negflag degree : Nat) : Nat :=
  let tempdegree := u8 degree
  let comp := atan2_comp tempdegree
  let degree := u32 (degree + comp)
  let degree := if negflag &&& 0x10 ≠ 0 then u32 (90 + 2 ^ 32 - degree) else degree
  let degree :=
    if negflag &&& 0x02 ≠ 0 then
      if negflag &&& 0x01 ≠ 0 then u32 (180 + degree) else u32 (180 + 2 ^ 32 - degree)
    else
      if negflag &&& 0x01 ≠ 0 then u32 (360 + 2 ^ 32 - degree) else degree
  u16 degree

/-- The function `lv_atan2` (lv_math.c, lines 240-313) for `int` arguments.
The division is by zero exactly when `x` and `y` are both zero; this is the
result `none`. -/
def lv_atan2 (x y : Int) : Option Nat :=
  let negflag : Nat := 0
  let negflag := if x < 0 then u8 (negflag + 0x01) else negflag
  let x := if x < 0 then 0 - x else x
  let ux := toU32 x
  let negflag := if y < 0 then u8 (negflag + 0x02) else negflag
  let y := if y < 0 then 0 - y else y
  let uy := toU32 y
  if ux > uy then
    some (atan2_finish (u8 (negflag + 0x10)) (u32 (uy * 45) / ux))
  else if uy = 0 then
    none
  else
    some (atan2_finish negflag (u32 (ux * 45) / uy))

/-- The value `ux` of `lv_atan2` (lv_math.c, lines 263-267): the magnitude of
`x` as `unsigned int`. -/
def atan2_ux (x : Int) : Nat := toU32 (if x < 0 then 0 - x else x)

/-- The value `uy` of `lv_atan2` (lv_math.c, lines 268-272): the magnitude of
`y` as `unsigned int`. -/
def atan2_uy (y : Int) : Nat := toU32 (if y < 0 then 0 - y else y)

/-- The value of `negflag` of `lv_atan2` after step 1 (lv_math.c, lines
262-280): sign bit of `x`, sign bit of `y`, octant bit. -/
def atan2_negflag (x y : Int) : Nat :=
  let negflag : Nat := 0
  let negflag := if x < 0 then u8 (negflag + 0x01) else negflag
  let negflag := if y < 0 then u8 (negflag + 0x02) else negflag
  if atan2_ux x > atan2_uy y then u8 (negflag + 0x10) else negflag

/-- The divisor of the ratio step of `lv_atan2` (lv_math.c, lines 275-280):
`ux` when `ux > uy`, otherwise `uy`. -/
def atan2_divisor (x y : Int) : Nat :=
  if atan2_ux x > atan2_uy y then atan2_ux x else atan2_uy y

/-- The scaled ratio `degree` of step 1 of `lv_atan2` (lv_math.c, lines
275-280); it is meaningful when the divisor is not zero. -/
def atan2_ratio (x y : Int) : Nat :=
  if atan2_ux x > atan2_uy y then u32 (atan2_uy y * 45) / atan2_ux x
  else u32 (atan2_ux x * 45) / atan2_uy y

/-- The value of `degree` of `lv_atan2` after the compensation and the octant
inversion (lv_math.c, lines 283-299), before the quadrant is chosen. -/
def atan2_octant_degree (negflag degree : Nat) : Nat :=
  let tempdegree := u8 degree
  let comp := atan2_comp tempdegree
  let degree := u32 (degree + comp)
  if negflag &&& 0x10 ≠ 0 then u32 (90 + 2 ^ 32 - degree) else degree

/-- None of the unsigned subtractions `90 - degree`, `180 - degree`,
`360 - degree` of `lv_atan2` (lv_math.c, lines 299-311) that the flags select
underflows. -/
def atan2_finish_exact (negflag degree : Nat) : Bool :=
  let compensated := degree + atan2_comp (u8 degree)
  let octant := atan2_octant_degree negflag degree
  (if negflag &&& 0x10 ≠ 0 then decide (compensated ≤ 90) else true) &&
  (if negflag &&& 0x02 ≠ 0 then
    (if negflag &&& 0x01 ≠ 0 then true else decide (octant ≤ 180))
  else
    (if negflag &&& 0x01 ≠ 0 then decide (octant ≤ 360) else true))

/-! ## The line meter: `src/lv_objx/lv_lmeter.c` (value and range) -/

/-- The extended data `lv_lmeter_ext_t` of a line meter, with the fields that
`lv_lmeter.c` reads and writes.  The declaration is in `lv_lmeter.h`; the
accessors of `lv_lmeter.c` return `cur_value`, `min_value`, `max_value` as
`int16_t` and `line_cnt`, `scale_angle`, `angle_ofs` as `uint16_t`. -/
structure lv_lmeter_ext_t where
  min_value : Int
  max_value : Int
  cur_value : Int
  line_cnt : Nat
  scale_angle : Nat
  angle_ofs : Nat
deriving DecidableEq

/-- The extended data that `lv_lmeter_create` sets up (lv_lmeter.c, lines
53-112).  `obj_ok` and `ext_ok` say whether the two allocations succeed; the
function returns `NULL` (`none`) when one fails.  `copy` is the extended data
of the line meter to copy, if any. -/
def lv_lmeter_create (obj_ok ext_ok : Bool) (copy : Option lv_lmeter_ext_t) :
    Option lv_lmeter_ext_t :=
  if obj_ok = false then none
  else if ext_ok = false then none
  else
    let ext : lv_lmeter_ext_t :=
      { min_value := 0, max_value := 100, cur_value := 0, line_cnt := 21, scale_angle := 240,
        angle_ofs := 0 }
    match copy with
    | none => some ext
    | some copy_ext =>
      some { ext with
        scale_angle := copy_ext.scale_angle, line_cnt := copy_ext.line_cnt,
        min_value := copy_ext.min_value, max_value := copy_ext.max_value,
        cur_value := copy_ext.cur_value }

/-- The function `lv_lmeter_set_value` (lv_lmeter.c, lines 123-133) on the
extended data; `value` is an `int16_t`. -/
def lv_lmeter_set_value (ext : lv_lmeter_ext_t) (value : Int) : lv_lmeter_ext_t :=
  if ext.cur_value = value then ext
  else
    let ext := { ext with cur_value := if value > ext.max_value then ext.max_value else value }
    let ext := { ext with
      cur_value := if ext.cur_value < ext.min_value then ext.min_value else ext.cur_value }
    ext

/-- The function `lv_lmeter_set_range` (lv_lmeter.c, lines 141-159) on the
extended data; `min` and `max` are `int16_t`. -/
def lv_lmeter_set_range (ext : lv_lmeter_ext_t) (min max : Int) : lv_lmeter_ext_t :=
  if ext.min_value = min ∧ ext.max_value = max then ext
  else
    let ext := { ext with max_value := max }
    let ext := { ext with min_value := min }
    let ext :=
      if ext.cur_value > max then
        lv_lmeter_set_value { ext with cur_value := max } max
      else ext
    let ext :=
      if ext.cur_value < min then
        lv_lmeter_set_value { ext with cur_value := min } min
      else ext
    ext

/-- A call of one of the two setters of the value and the range. -/
inductive LmeterCall where
  | set_value (value : Int)
  | set_range (min max : Int)
deriving DecidableEq

/-- The arguments of a call are `int16_t` values and a range has `min ≤ max`. -/
def LmeterCall.ok : LmeterCall → Bool
  | .set_value v => decide (-32768 ≤ v ∧ v ≤ 32767)
  | .set_range lo hi =>
    decide (-32768 ≤ lo ∧ lo ≤ 32767 ∧ -32768 ≤ hi ∧ hi ≤ 32767 ∧ lo ≤ hi)

/-- The effect of one call on the extended data. -/
def lmeter_call (ext : lv_lmeter_ext_t) : LmeterCall → lv_lmeter_ext_t
  | .set_value v => lv_lmeter_set_value ext v
  | .set_range lo hi => lv_lmeter_set_range ext lo hi

/-- The effect of a sequence of calls, first call first. -/
def lmeter_calls (ext : lv_lmeter_ext_t) (calls : List LmeterCall) : lv_lmeter_ext_t :=
  calls.foldl lmeter_call ext

/-- The value of a line meter lies within its range. -/
abbrev lmeter_in_range (ext : lv_lmeter_ext_t) : Prop :=
  ext.min_value ≤ ext.cur_value ∧ ext.cur_value ≤ ext.max_value

set_option maxRecDepth 100000

/-! ## Theorems about `lv_sqrt` -/

/-- For a 32-bit `x` the macro `TOP2BITS` yields the two highest bits of `x`. -/
theorem TOP2BITS_eq (x : Nat) (hx : x < 2 ^ 32) : TOP2BITS x = x / 2 ^ 30 := by
  have h1 : TOP2BITS x = (x >>> 30) &&& 3 := by
    unfold TOP2BITS BITSPERLONG
    apply Nat.eq_of_testBit_eq
    intro i
    simp only [Nat.testBit_shiftRight, Nat.testBit_and, Nat.testBit_shiftLeft]
    by_cases h : 30 ≤ 30 + i
    · simp [h]
    · omega
  have h2 : (x >>> 30) &&& 3 = (x >>> 30) % 2 ^ 2 := Nat.and_pow_two_sub_one_eq_mod _ 2
  rw [h1, h2, Nat.shiftRight_eq_div_pow]
  omega

/-- One pass of the loop without the reductions modulo `2 ^ 32`, valid while
the accumulator is below `2 ^ 23` and the remainder at most twice the accumulator. -/
theorem sqrt_iter_eq (s : SqrtLoop) (hx : s.x < 2 ^ 32) (ha : s.a < 2 ^ 23)
    (hr : s.r ≤ 2 * s.a) :
    sqrt_iter s =
      if 4 * s.r + s.x / 2 ^ 30 ≥ 4 * s.a + 1 then
        { x := 4 * s.x % 2 ^ 32, a := 2 * s.a + 1,
          r := 4 * s.r + s.x / 2 ^ 30 - (4 * s.a + 1), e := 4 * s.a + 1 }
      else
        { x := 4 * s.x % 2 ^ 32, a := 2 * s.a, r := 4 * s.r + s.x / 2 ^ 30, e := 4 * s.a + 1 } := by
  have htop := TOP2BITS_eq s.x hx
  have hr1 : u32 (u32 (s.r <<< 2) + TOP2BITS s.x) = 4 * s.r + s.x / 2 ^ 30 := by
    rw [htop]; simp only [u32, Nat.shiftLeft_eq]; omega
  have hx1 : u32 (s.x <<< 2) = 4 * s.x % 2 ^ 32 := by
    simp only [u32, Nat.shiftLeft_eq]; omega
  have ha1 : u32 (s.a <<< 1) = 2 * s.a := by
    simp only [u32, Nat.shiftLeft_eq]; omega
  have he1 : u32 (u32 ((2 * s.a) <<< 1) + 1) = 4 * s.a + 1 := by
    simp only [u32, Nat.shiftLeft_eq]; omega
  have ha2 : u32 (2 * s.a + 1) = 2 * s.a + 1 := by
    simp only [u32]; omega
  unfold sqrt_iter
  simp only [hr1, hx1, ha1, he1, ha2]

/-- Under the same bounds no shift or sum of the pass exceeds 32 bits. -/
theorem sqrt_iter_exact_of (s : SqrtLoop) (hx : s.x < 2 ^ 32) (ha : s.a < 2 ^ 23)
    (hr : s.r ≤ 2 * s.a) : sqrt_iter_exact s := by
  have htop := TOP2BITS_eq s.x hx
  unfold sqrt_iter_exact
  rw [htop]
  simp only [Nat.shiftLeft_eq]
  omega

/-- One pass of the loop carries the invariant from `k` to `k + 1` and does not wrap. -/
theorem sqrt_iter_inv (x0 k : Nat) (s : SqrtLoop) (hk : k < 24) (h : SqrtInv x0 k s) :
    SqrtInv x0 (k + 1) (sqrt_iter s) ∧ sqrt_iter_exact s := by
  obtain ⟨hx, hsq, hr, ha⟩ := h
  have hpow : 2 ^ k ≤ 2 ^ 23 := Nat.pow_le_pow_right (by decide) (by omega)
  have ha23 : s.a < 2 ^ 23 := by omega
  have hxlt : s.x < 2 ^ 32 := by rw [hx]; exact Nat.mod_lt _ (by decide)
  have hY : x0 * 4 ^ (k + 1) = 4 * (x0 * 4 ^ k) := by rw [pow_succ]; ring
  have hP : 2 ^ (k + 1) = 2 * 2 ^ k := by rw [pow_succ]; ring
  refine ⟨?_, sqrt_iter_exact_of s hxlt ha23 hr⟩
  rw [sqrt_iter_eq s hxlt ha23 hr]
  unfold SqrtInv
  rw [hY, hP]
  generalize x0 * 4 ^ k = Y at hx hsq
  generalize 2 ^ k = P at ha
  have hsq1 : (2 * s.a + 1) * (2 * s.a + 1) = 4 * (s.a * s.a) + 4 * s.a + 1 := by ring
  have hsq2 : (2 * s.a) * (2 * s.a) = 4 * (s.a * s.a) := by ring
  split
  · simp only [hsq1]
    refine ⟨?_, ?_, ?_, ?_⟩ <;> omega
  · simp only [hsq2]
    refine ⟨?_, ?_, ?_, ?_⟩ <;> omega

/-- The invariant is carried through any `n` further passes, up to pass 24. -/
theorem sqrt_loop_inv (x0 : Nat) : ∀ (n k : Nat) (s : SqrtLoop), k + n ≤ 24 →
    SqrtInv x0 k s → SqrtInv x0 (k + n) (sqrt_loop n s)
  | 0, _, _, _, h => h
  | n + 1, k, s, hk, h => by
    have h1 := (sqrt_iter_inv x0 k s (by omega) h).1
    have h2 := sqrt_loop_inv x0 n (k + 1) (sqrt_iter s) (by omega) h1
    have e : k + (n + 1) = k + 1 + n := by omega
    rw [e]
    exact h2

/-- The invariant holds at the entry of the loop. -/
theorem sqrt_inv_init (x0 : Nat) (hx : x0 < 2 ^ 32) :
    SqrtInv x0 0 { x := x0, a := 0, r := 0, e := 0 } := by
  unfold SqrtInv
  simp only [pow_zero, Nat.mul_one]
  refine ⟨?_, ?_, ?_, ?_⟩ <;> omega

/-- The invariant holds after `k ≤ 24` passes from the entry state. -/
theorem sqrt_loop_inv_init (x0 k : Nat) (hx : x0 < 2 ^ 32) (hk : k ≤ 24) :
    SqrtInv x0 k (sqrt_loop k { x := x0, a := 0, r := 0, e := 0 }) := by
  have h := sqrt_loop_inv x0 k 0 _ (by omega) (sqrt_inv_init x0 hx)
  rw [Nat.zero_add] at h
  exact h

/-- The accumulator after the 24 passes is the integer square root of `65536 * x`. -/
theorem sqrt_loop_result (x : Nat) (hx : x < 2 ^ 32) :
    let a := (sqrt_loop (BITSPERLONG / 2 + 8) { x := x, a := 0, r := 0, e := 0 }).a
    a * a ≤ 65536 * x ∧ 65536 * x < (a + 1) * (a + 1) ∧ a < 2 ^ 24 := by
  intro a
  obtain ⟨_, hsq, hr, ha⟩ := sqrt_loop_inv_init x 24 hx (by omega)
  have e : x * 4 ^ 24 / 2 ^ 32 = 65536 * x := by omega
  rw [e] at hsq
  have e2 : (a + 1) * (a + 1) = a * a + 2 * a + 1 := by ring
  rw [e2]
  have ha' : a * a + (sqrt_loop 24 { x := x, a := 0, r := 0, e := 0 }).r = 65536 * x := hsq
  have hr' : (sqrt_loop 24 { x := x, a := 0, r := 0, e := 0 }).r ≤ 2 * a := hr
  refine ⟨?_, ?_, ha⟩ <;> omega

/-- On the loop path the integer part is the accumulator shifted right by 8,
when the field `i` has at least 16 bits. -/
theorem lv_sqrt_loop_i (wi wf x : Nat) (hwi : 16 ≤ wi) (h64 : 64 < x) (hx : x < 2 ^ 32) :
    (lv_sqrt wi wf x).i =
      (sqrt_loop (BITSPERLONG / 2 + 8) { x := x, a := 0, r := 0, e := 0 }).a / 256 := by
  obtain ⟨_, _, ha⟩ := sqrt_loop_result x hx
  have h0 : x ≠ 0 := by omega
  have h1 : ¬ x ≤ 64 := by omega
  have hpi : 2 ^ 16 ≤ 2 ^ wi := Nat.pow_le_pow_right (by decide) hwi
  unfold lv_sqrt
  simp only [h0, h1, if_false, Nat.shiftRight_eq_div_pow]
  generalize (sqrt_loop (BITSPERLONG / 2 + 8) { x := x, a := 0, r := 0, e := 0 }).a = a at ha
  generalize 2 ^ wi = P at hpi
  apply Nat.mod_eq_of_lt
  omega

/-- On the loop path the fraction part is the low byte of the accumulator,
when the field `f` has at least 8 bits. -/
theorem lv_sqrt_loop_f (wi wf x : Nat) (hwf : 8 ≤ wf) (h64 : 64 < x) :
    (lv_sqrt wi wf x).f =
      (sqrt_loop (BITSPERLONG / 2 + 8) { x := x, a := 0, r := 0, e := 0 }).a % 256 := by
  have h0 : x ≠ 0 := by omega
  have h1 : ¬ x ≤ 64 := by omega
  have hpf : 2 ^ 8 ≤ 2 ^ wf := Nat.pow_le_pow_right (by decide) hwf
  have hand : ∀ n : Nat, n &&& 0xFF = n % 2 ^ 8 := fun n => Nat.and_pow_two_sub_one_eq_mod n 8
  unfold lv_sqrt
  simp only [h0, h1, if_false, hand]
  generalize (sqrt_loop (BITSPERLONG / 2 + 8) { x := x, a := 0, r := 0, e := 0 }).a = a
  generalize 2 ^ wf = P at hpf
  have hlt : a % 2 ^ 8 < P := by omega
  rw [Nat.mod_eq_of_lt hlt]
  omega

/-- On the loop path the fixed-point value of the result is the accumulator. -/
theorem lv_sqrt_loop_value (wi wf x : Nat) (hwi : 16 ≤ wi) (hwf : 8 ≤ wf) (h64 : 64 < x)
    (hx : x < 2 ^ 32) :
    sqrt_value (lv_sqrt wi wf x) =
      (sqrt_loop (BITSPERLONG / 2 + 8) { x := x, a := 0, r := 0, e := 0 }).a := by
  unfold sqrt_value
  rw [lv_sqrt_loop_i wi wf x hwi h64 hx, lv_sqrt_loop_f wi wf x hwf h64]
  omega

/-- The first 64 entries of the table `ci` are the integer square roots of 1..64. -/
theorem ci_isqrt : ∀ n : Fin 64,
    ci.getD n.val 0 * ci.getD n.val 0 ≤ n.val + 1 ∧
    n.val + 1 < (ci.getD n.val 0 + 1) * (ci.getD n.val 0 + 1) ∧ ci.getD n.val 0 ≤ 8 := by
  decide

/-- The integer square root of `65536 * x`, divided by 256, is the integer
square root of `x`. -/
theorem isqrt_of_scaled (a x : Nat) (h1 : a * a ≤ 65536 * x)
    (h2 : 65536 * x < (a + 1) * (a + 1)) :
    a / 256 * (a / 256) ≤ x ∧ x < (a / 256 + 1) * (a / 256 + 1) := by
  have hlo : 256 * (a / 256) ≤ a := Nat.mul_div_le a 256
  have hhi : a + 1 ≤ 256 * (a / 256 + 1) := by omega
  have h3 : 256 * (a / 256) * (256 * (a / 256)) ≤ a * a := Nat.mul_le_mul hlo hlo
  have h4 : (a + 1) * (a + 1) ≤ 256 * (a / 256 + 1) * (256 * (a / 256 + 1)) :=
    Nat.mul_le_mul hhi hhi
  have e3 : 256 * (a / 256) * (256 * (a / 256)) = 65536 * (a / 256 * (a / 256)) := by ring
  have e4 : 256 * (a / 256 + 1) * (256 * (a / 256 + 1)) =
      65536 * ((a / 256 + 1) * (a / 256 + 1)) := by ring
  rw [e3] at h3
  rw [e4] at h4
  constructor <;> omega

/-- C1: for every 32-bit `x > 64` the result `(i, f)` of `lv_sqrt` has the
value `V = 256 * i + f` equal to the integer floor of `256 * sqrt x`, that is
`V * V ≤ 65536 * x < (V + 1) * (V + 1)`; and in each of the 24 passes of the
loop the remainder, the accumulator and the trial value are computed without
32-bit wrap-around.  The fields of the result are assumed to hold at least 16
bits (`i`) and 8 bits (`f`). -/
theorem lv_sqrt_loop_floor (wi wf x : Nat) (hwi : 16 ≤ wi) (hwf : 8 ≤ wf) (h64 : 64 < x)
    (hx : x < 2 ^ 32) :
    (sqrt_value (lv_sqrt wi wf x) * sqrt_value (lv_sqrt wi wf x) ≤ 65536 * x ∧
      65536 * x < (sqrt_value (lv_sqrt wi wf x) + 1) * (sqrt_value (lv_sqrt wi wf x) + 1)) ∧
    ∀ k, k < BITSPERLONG / 2 + 8 →
      sqrt_iter_exact (sqrt_loop k { x := x, a := 0, r := 0, e := 0 }) := by
  obtain ⟨h1, h2, _⟩ := sqrt_loop_result x hx
  constructor
  · rw [lv_sqrt_loop_value wi wf x hwi hwf h64 hx]
    exact ⟨h1, h2⟩
  · intro k hk
    have hk24 : k < 24 := hk
    exact (sqrt_iter_inv x k _ hk24 (sqrt_loop_inv_init x k hx (by omega))).2

/-- Witness of C1 at `x = 1000` with 16-bit fields. -/
theorem lv_sqrt_loop_floor_witness :
    (16 ≤ 16 ∧ 8 ≤ 16 ∧ 64 < 1000 ∧ 1000 < 2 ^ 32) ∧
    (sqrt_value (lv_sqrt 16 16 1000) * sqrt_value (lv_sqrt 16 16 1000) ≤ 65536 * 1000 ∧
      65536 * 1000 <
        (sqrt_value (lv_sqrt 16 16 1000) + 1) * (sqrt_value (lv_sqrt 16 16 1000) + 1)) ∧
    ∀ k, k < BITSPERLONG / 2 + 8 →
      sqrt_iter_exact (sqrt_loop k { x := 1000, a := 0, r := 0, e := 0 }) :=
  ⟨by decide, lv_sqrt_loop_floor 16 16 1000 (by decide) (by decide) (by decide) (by decide)⟩

/-- C2: for every 32-bit `x` (zero, table path and loop path alike) the
integer part `i` returned by `lv_sqrt` is the integer square root of `x`:
`i * i ≤ x < (i + 1) * (i + 1)`.  The field `i` is assumed to hold at least
16 bits. -/
theorem lv_sqrt_integer_part (wi wf x : Nat) (hwi : 16 ≤ wi) (hx : x < 2 ^ 32) :
    (lv_sqrt wi wf x).i * (lv_sqrt wi wf x).i ≤ x ∧
    x < ((lv_sqrt wi wf x).i + 1) * ((lv_sqrt wi wf x).i + 1) := by
  have hpi : 2 ^ 16 ≤ 2 ^ wi := Nat.pow_le_pow_right (by decide) hwi
  by_cases h0 : x = 0
  · subst h0
    simp [lv_sqrt]
  · by_cases h64 : x ≤ 64
    · obtain ⟨c1, c2, c3⟩ := ci_isqrt ⟨x - 1, by omega⟩
      have e : x - 1 + 1 = x := by omega
      simp only [e] at c1 c2 c3
      have hi : (lv_sqrt wi wf x).i = ci.getD (x - 1) 0 := by
        simp only [lv_sqrt, h0, h64, if_true, if_false]
        apply Nat.mod_eq_of_lt
        omega
      rw [hi]
      exact ⟨c1, c2⟩
    · obtain ⟨h1, h2, _⟩ := sqrt_loop_result x hx
      rw [lv_sqrt_loop_i wi wf x hwi (by omega) hx]
      exact isqrt_of_scaled _ x h1 h2

/-- Witness of C2 at `x = 50` (table path) with 16-bit fields. -/
theorem lv_sqrt_integer_part_witness :
    (16 ≤ 16 ∧ 50 < 2 ^ 32) ∧
    (lv_sqrt 16 16 50).i * (lv_sqrt 16 16 50).i ≤ 50 ∧
    50 < ((lv_sqrt 16 16 50).i + 1) * ((lv_sqrt 16 16 50).i + 1) :=
  ⟨by decide, lv_sqrt_integer_part 16 16 50 (by decide) (by decide)⟩

/-! ## Theorems about `lv_atan2` -/

/-- A magnitude within the bound of the source comment converts to `unsigned int` unchanged. -/
theorem toU32_of_small (z : Int) (h0 : 0 ≤ z) (h1 : z ≤ 1456) : toU32 z = z.toNat := by
  unfold toU32
  omega

/-- Within the bound `|x|, |y| ≤ 1456` and with `x`, `y` not both zero,
`lv_atan2` returns a value: the flags are the two sign bits and the octant bit,
and the quotient is taken of the absolute values without wrap-around. -/
theorem lv_atan2_eq (x y : Int) (hx : -1456 ≤ x ∧ x ≤ 1456) (hy : -1456 ≤ y ∧ y ≤ 1456)
    (hnz : x ≠ 0 ∨ y ≠ 0) :
    lv_atan2 x y = some (atan2_finish
      ((if x < 0 then 1 else 0) + (if y < 0 then 2 else 0)
        + (if x.natAbs > y.natAbs then 16 else 0))
      (if x.natAbs > y.natAbs then y.natAbs * 45 / x.natAbs
        else x.natAbs * 45 / y.natAbs)) := by
  have hux : toU32 (if x < 0 then 0 - x else x) = x.natAbs := by
    rw [toU32_of_small _ (by split <;> omega) (by split <;> omega)]
    split <;> omega
  have huy : toU32 (if y < 0 then 0 - y else y) = y.natAbs := by
    rw [toU32_of_small _ (by split <;> omega) (by split <;> omega)]
    split <;> omega
  have hmx : u32 (x.natAbs * 45) = x.natAbs * 45 := by unfold u32; omega
  have hmy : u32 (y.natAbs * 45) = y.natAbs * 45 := by unfold u32; omega
  unfold lv_atan2
  simp only [hux, huy, hmx, hmy]
  by_cases hgt : x.natAbs > y.natAbs
  · simp only [hgt, if_true]
    congr 2
    by_cases h1 : x < 0 <;> by_cases h2 : y < 0 <;> simp [h1, h2, u8]
  · have hy0 : y.natAbs ≠ 0 := by omega
    simp only [hgt, if_false, hy0]
    congr 2
    by_cases h1 : x < 0 <;> by_cases h2 : y < 0 <;> simp [h1, h2, u8]

/-- The scaled quotient of the smaller by the larger magnitude is at most 45. -/
theorem atan2_quot_le (ux uy : Nat) :
    (if ux > uy then uy * 45 / ux else ux * 45 / uy) ≤ 45 := by
  split
  · apply Nat.div_le_of_le_mul
    nlinarith
  · apply Nat.div_le_of_le_mul
    nlinarith

/-- For each of the eight flag values and each quotient `0..45` the result is at most 360. -/
theorem atan2_finish_le : ∀ f ∈ [0, 1, 2, 3, 16, 17, 18, 19], ∀ d : Fin 46,
    atan2_finish f d.val ≤ 360 := by
  decide

/-- The quadrant cases of `atan2_finish` relative to the case of both signs
positive, for either octant flag `o` and each quotient `0..45`. -/
theorem atan2_finish_quadrants : ∀ o ∈ [0, 16], ∀ d : Fin 46,
    atan2_finish o d.val ≤ 90 ∧
    atan2_finish (0 + 2 + o) d.val = 180 - atan2_finish o d.val ∧
    atan2_finish (1 + 0 + o) d.val = 360 - atan2_finish o d.val ∧
    atan2_finish (1 + 2 + o) d.val = 180 + atan2_finish o d.val := by
  decide

/-- C3, counterexample: `lv_atan2(-1, 46)` is 360, so the result is not always
below 360. -/
theorem lv_atan2_reaches_360 :
    lv_atan2 (-1) 46 = some 360 ∧ ¬ ∃ d, lv_atan2 (-1) 46 = some d ∧ d < 360 := by
  have h : lv_atan2 (-1) 46 = some 360 := by decide
  refine ⟨h, ?_⟩
  rintro ⟨d, hd, hlt⟩
  rw [h] at hd
  cases hd
  omega

/-- C3, amended: for every pair `(x, y)` with at least one non-zero and
`|x|, |y| ≤ 1456`, `lv_atan2(x, y)` returns a value in the closed range
`[0, 360]` (the range the source documents). -/
theorem lv_atan2_range (x y : Int) (hx : -1456 ≤ x ∧ x ≤ 1456) (hy : -1456 ≤ y ∧ y ≤ 1456)
    (hnz : x ≠ 0 ∨ y ≠ 0) :
    ∃ d, lv_atan2 x y = some d ∧ d ≤ 360 := by
  refine ⟨_, lv_atan2_eq x y hx hy hnz, ?_⟩
  have hq := atan2_quot_le x.natAbs y.natAbs
  generalize (if x.natAbs > y.natAbs then y.natAbs * 45 / x.natAbs
    else x.natAbs * 45 / y.natAbs) = q at hq
  have hf : ((if x < 0 then 1 else 0) + (if y < 0 then 2 else 0)
      + (if x.natAbs > y.natAbs then 16 else 0)) ∈ [0, 1, 2, 3, 16, 17, 18, 19] := by
    by_cases h1 : x < 0 <;> by_cases h2 : y < 0 <;> by_cases h3 : x.natAbs > y.natAbs <;>
      simp [h1, h2, h3]
  exact atan2_finish_le _ hf ⟨q, by omega⟩

/-- Witness of the amended C3 at `(-1, 46)`. -/
theorem lv_atan2_range_witness :
    ((-1456 : Int) ≤ -1 ∧ (-1 : Int) ≤ 1456) ∧ ((-1456 : Int) ≤ 46 ∧ (46 : Int) ≤ 1456) ∧
    ((-1 : Int) ≠ 0 ∨ (46 : Int) ≠ 0) ∧ ∃ d, lv_atan2 (-1) 46 = some d ∧ d ≤ 360 :=
  ⟨by decide, by decide, by decide, lv_atan2_range (-1) 46 (by decide) (by decide) (by decide)⟩

/-- C4, counterexample: none of the four cardinal values of the claim is the
value `lv_atan2` returns. -/
theorem lv_atan2_cardinal_mismatch :
    lv_atan2 1 0 ≠ some 0 ∧ lv_atan2 0 1 ≠ some 90 ∧
    lv_atan2 (-1) 0 ≠ some 180 ∧ lv_atan2 0 (-1) ≠ some 270 := by
  decide

/-- C4, amended: the cardinal directions are exact with the angle counted
from the positive y axis towards the positive x axis:
`lv_atan2(0, 1) == 0`, `lv_atan2(1, 0) == 90`, `lv_atan2(0, -1) == 180` and
`lv_atan2(-1, 0) == 270`. -/
theorem lv_atan2_cardinal :
    lv_atan2 0 1 = some 0 ∧ lv_atan2 1 0 = some 90 ∧
    lv_atan2 0 (-1) = some 180 ∧ lv_atan2 (-1) 0 = some 270 := by
  decide

/-- C5, counterexample: with `d = lv_atan2(1, 1) = 45`, `lv_atan2(1, -1)` is
135, not `360 - d`, and `lv_atan2(-1, 1)` is 315, not `180 - d`. -/
theorem lv_atan2_quadrant_mismatch :
    lv_atan2 1 1 = some 45 ∧ lv_atan2 1 (-1) = some 135 ∧ lv_atan2 (-1) 1 = some 315 ∧
    lv_atan2 1 (-1) ≠ some (360 - 45) ∧ lv_atan2 (-1) 1 ≠ some (180 - 45) := by
  decide

/-- C5, amended: for every `x > 0`, `y > 0` with `x, y ≤ 1456`, writing
`d = lv_atan2(x, y)` for the first-quadrant degree (`d ≤ 90`),
`lv_atan2(x, -y) == 180 - d`, `lv_atan2(-x, y) == 360 - d` and
`lv_atan2(-x, -y) == 180 + d`. -/
theorem lv_atan2_quadrants (x y : Int) (hx : 0 < x ∧ x ≤ 1456) (hy : 0 < y ∧ y ≤ 1456) :
    ∃ d, lv_atan2 x y = some d ∧ d ≤ 90 ∧
      lv_atan2 x (-y) = some (180 - d) ∧
      lv_atan2 (-x) y = some (360 - d) ∧
      lv_atan2 (-x) (-y) = some (180 + d) := by
  have hq := atan2_quot_le x.natAbs y.natAbs
  have e1 := lv_atan2_eq x y (by omega) (by omega) (by omega)
  have e2 := lv_atan2_eq x (-y) (by omega) (by omega) (by omega)
  have e3 := lv_atan2_eq (-x) y (by omega) (by omega) (by omega)
  have e4 := lv_atan2_eq (-x) (-y) (by omega) (by omega) (by omega)
  have hx1 : ¬ x < 0 := by omega
  have hx2 : -x < 0 := by omega
  have hy1 : ¬ y < 0 := by omega
  have hy2 : -y < 0 := by omega
  simp only [Int.natAbs_neg, hx1, hx2, hy1, hy2, if_true, if_false] at e1 e2 e3 e4
  generalize (if x.natAbs > y.natAbs then y.natAbs * 45 / x.natAbs
    else x.natAbs * 45 / y.natAbs) = q at hq e1 e2 e3 e4
  have ho : (if x.natAbs > y.natAbs then 16 else 0) ∈ [0, 16] := by
    split <;> simp
  generalize (if x.natAbs > y.natAbs then 16 else 0) = o at ho e1 e2 e3 e4
  obtain ⟨h90, q2, q3, q4⟩ := atan2_finish_quadrants o ho ⟨q, by omega⟩
  simp only [Nat.zero_add] at e1
  refine ⟨_, e1, h90, ?_, ?_, ?_⟩
  · rw [e2, ← q2]
  · rw [e3, ← q3]
  · rw [e4, ← q4]

/-- Witness of the amended C5 at `(3, 4)`. -/
theorem lv_atan2_quadrants_witness :
    ((0 : Int) < 3 ∧ (3 : Int) ≤ 1456) ∧ ((0 : Int) < 4 ∧ (4 : Int) ≤ 1456) ∧
    ∃ d, lv_atan2 3 4 = some d ∧ d ≤ 90 ∧
      lv_atan2 3 (-4) = some (180 - d) ∧
      lv_atan2 (-3) 4 = some (360 - d) ∧
      lv_atan2 (-3) (-4) = some (180 + d) :=
  ⟨by decide, by decide, lv_atan2_quadrants 3 4 (by decide) (by decide)⟩

/-- The angle of two degrees has a tangent below `3 / 68`. -/
theorem tan_two_degrees_lt : Real.tan (Real.pi / 90) < 3 / 68 := by
  have hpi := Real.pi_lt_d2
  have hpi0 := Real.pi_pos
  have hx0 : 0 < Real.pi / 90 := by positivity
  have hx1 : Real.pi / 90 < 0.035 := by linarith
  have hs : Real.sin (Real.pi / 90) < Real.pi / 90 := Real.sin_lt hx0
  have hc : 1 - (Real.pi / 90) ^ 2 / 2 ≤ Real.cos (Real.pi / 90) :=
    Real.one_sub_sq_div_two_le_cos
  have hsq : (Real.pi / 90) ^ 2 < 0.035 ^ 2 := by
    nlinarith
  have hc1 : (0.999 : ℝ) < Real.cos (Real.pi / 90) := by
    norm_num at hsq ⊢
    linarith
  have hcpos : 0 < Real.cos (Real.pi / 90) := by linarith
  rw [Real.tan_eq_sin_div_cos, div_lt_iff₀ hcpos]
  linarith

/-- The arc tangent of `3 / 68`, in degrees, exceeds two degrees. -/
theorem two_degrees_lt_arctan : (2 : ℝ) < Real.arctan (3 / 68) * (180 / Real.pi) := by
  have hpi0 := Real.pi_pos
  have h1 : Real.arctan (Real.tan (Real.pi / 90)) = Real.pi / 90 :=
    Real.arctan_tan (by linarith) (by linarith)
  have h2 : Real.pi / 90 < Real.arctan (3 / 68) := by
    rw [← h1]
    exact Real.arctan_strictMono tan_two_degrees_lt
  have h3 : Real.pi / 90 * (180 / Real.pi) = 2 := by
    field_simp
    ring
  rw [← h3]
  exact mul_lt_mul_of_pos_right h2 (by positivity)

/-- C6, the code at the failing input `(3, 68)`: `lv_atan2` returns 1, while
the angle of the vector, counted in degrees from the positive y axis as
`lv_atan2` counts it, is `arctan (3 / 68)` and exceeds `1 + 1`; counted from
the positive x axis it is `arctan (68 / 3)`, which lies between `1 + 1` and
90.  Either way the result is more than one degree away, also modulo 360. -/
theorem lv_atan2_error_above_one :
    lv_atan2 3 68 = some 1 ∧
    (1 : ℝ) + 1 < Real.arctan (3 / 68) * (180 / Real.pi) ∧
    (1 : ℝ) + 1 < Real.arctan (68 / 3) * (180 / Real.pi) ∧
    Real.arctan (68 / 3) * (180 / Real.pi) < 90 := by
  have hpi0 := Real.pi_pos
  have hA := two_degrees_lt_arctan
  have hmono : Real.arctan (3 / 68) < Real.arctan (68 / 3) :=
    Real.arctan_strictMono (by norm_num)
  have hpos : (0 : ℝ) < 180 / Real.pi := by positivity
  refine ⟨by decide, by linarith, ?_, ?_⟩
  · have := mul_lt_mul_of_pos_right hmono hpos
    linarith
  · have h := Real.arctan_lt_pi_div_two (68 / 3)
    have h3 : Real.pi / 2 * (180 / Real.pi) = 90 := by
      field_simp
      ring
    rw [← h3]
    exact mul_lt_mul_of_pos_right h hpos

/-! ## Theorems about `lv_bezier3` -/

/-- At `t = 0` only the term of `u0` remains. -/
theorem lv_bezier3_start (u0 u1 u2 u3 : Int) :
    lv_bezier3 0 u0 u1 u2 u3 = toI32 (u32 (1024 * toU32 u0) >>> 10) := by
  simp only [lv_bezier3, u32, Nat.shiftRight_eq_div_pow]
  congr 1
  norm_num
  omega

/-- At `t = 1024` only the term of `u3` remains. -/
theorem lv_bezier3_end (u0 u1 u2 u3 : Int) :
    lv_bezier3 1024 u0 u1 u2 u3 = toI32 (u32 (1024 * toU32 u3) >>> 10) := by
  simp only [lv_bezier3, u32, Nat.shiftRight_eq_div_pow]
  congr 1
  norm_num
  omega

/-- Scaling by 1024 in 32 bits and shifting back returns `u` exactly when
`0 ≤ u < 2 ^ 22`. -/
theorem toI32_scaled_eq_iff (u : Int) :
    toI32 (u32 (1024 * toU32 u) >>> 10) = u ↔ 0 ≤ u ∧ u < 2 ^ 22 := by
  unfold toI32 u32 toU32
  rw [Nat.shiftRight_eq_div_pow]
  constructor
  · intro h
    split at h <;> omega
  · intro h
    split <;> omega

/-- C7, counterexample: for the `int32_t` control values `u0 = -1` and
`u3 = 4194304` the endpoints are not reproduced. -/
theorem lv_bezier3_endpoints_wrap :
    lv_bezier3 0 (-1) 0 0 0 = 4194303 ∧ lv_bezier3 0 (-1) 0 0 0 ≠ -1 ∧
    lv_bezier3 1024 0 0 0 4194304 = 0 ∧ lv_bezier3 1024 0 0 0 4194304 ≠ 4194304 := by
  decide

/-- C7, amended: `lv_bezier3(0, u0, u1, u2, u3) == u0` holds exactly when
`0 ≤ u0 < 2 ^ 22`, and `lv_bezier3(1024, u0, u1, u2, u3) == u3` exactly when
`0 ≤ u3 < 2 ^ 22`, whatever the other control values; the documented range
`[0, 1024]` of the control values lies within. -/
theorem lv_bezier3_endpoints (u0 u1 u2 u3 : Int) :
    (lv_bezier3 0 u0 u1 u2 u3 = u0 ↔ 0 ≤ u0 ∧ u0 < 2 ^ 22) ∧
    (lv_bezier3 1024 u0 u1 u2 u3 = u3 ↔ 0 ≤ u3 ∧ u3 < 2 ^ 22) := by
  rw [lv_bezier3_start, lv_bezier3_end]
  exact ⟨toI32_scaled_eq_iff u0, toI32_scaled_eq_iff u3⟩

/-! ## Theorems about `lv_trigo_sin` -/

/-- The two normalisation steps of `lv_trigo_sin` (truncating `%`, then adding
360 to a negative value) give the non-negative residue modulo 360. -/
theorem tmod_360_normalised (a : Int) :
    (if Int.tmod a 360 < 0 then 360 + Int.tmod a 360 else Int.tmod a 360) = a % 360 := by
  have h : Int.tmod a 360 = a % 360 ∨ Int.tmod a 360 = a % 360 - 360 := by
    have h1 := Int.tmod_add_tdiv a 360
    have h2 : 0 ≤ a ∨ a < 0 := by omega
    rcases h2 with h2 | h2
    · left; exact Int.tmod_eq_emod h2 (by decide)
    · have h3 : a.tmod 360 = -((-a).tmod 360) := by
        cases a with
        | ofNat n => exact absurd h2 (Int.not_lt.mpr (Int.ofNat_nonneg n))
        | negSucc n => simp [Int.tmod]; rfl
      have h4 := @Int.tmod_eq_emod (-a) 360 (by omega) (by decide)
      omega
  split <;> omega

/-- The value of `lv_trigo_sin` depends on the residue modulo 360 only. -/
theorem lv_trigo_sin_emod (a : Int) : lv_trigo_sin a = lv_trigo_sin (a % 360) := by
  have h1 := tmod_360_normalised a
  have h2 := tmod_360_normalised (a % 360)
  have h3 : a % 360 % 360 = a % 360 := by omega
  unfold lv_trigo_sin
  simp only [h1, h2, h3]

/-- Oddness of `lv_trigo_sin` on the residues `0..359`. -/
theorem lv_trigo_sin_neg_fin : ∀ n : Fin 360,
    lv_trigo_sin (((360 - n.val) % 360 : Nat) : Int) = -lv_trigo_sin ((n.val : Nat) : Int) := by
  decide

/-- Reflection of `lv_trigo_sin` about 90 degrees on the residues `0..359`. -/
theorem lv_trigo_sin_suppl_fin : ∀ n : Fin 360,
    lv_trigo_sin (((540 - n.val) % 360 : Nat) : Int) = lv_trigo_sin ((n.val : Nat) : Int) := by
  decide

/-- C8: for every 16-bit signed angle `a`, `lv_trigo_sin(a)` equals
`lv_trigo_sin(a mod 360)` with `a mod 360` the non-negative residue in
`[0, 360)`; hence two 16-bit angles congruent modulo 360 give the same result. -/
theorem lv_trigo_sin_periodic (a b : Int) (_ha : -32768 ≤ a ∧ a ≤ 32767)
    (_hb : -32768 ≤ b ∧ b ≤ 32767) :
    (0 ≤ a % 360 ∧ a % 360 < 360) ∧
    lv_trigo_sin a = lv_trigo_sin (a % 360) ∧
    (a % 360 = b % 360 → lv_trigo_sin a = lv_trigo_sin b) := by
  refine ⟨by omega, lv_trigo_sin_emod a, ?_⟩
  intro h
  rw [lv_trigo_sin_emod a, lv_trigo_sin_emod b, h]

/-- Witness of C8 at `a = -350`, `b = 370`, both congruent to 10. -/
theorem lv_trigo_sin_periodic_witness :
    (((-32768 : Int) ≤ -350 ∧ (-350 : Int) ≤ 32767) ∧
      ((-32768 : Int) ≤ 370 ∧ (370 : Int) ≤ 32767)) ∧
    lv_trigo_sin (-350) = lv_trigo_sin ((-350) % 360) ∧
    lv_trigo_sin (-350) = lv_trigo_sin 370 :=
  ⟨by decide,
   (lv_trigo_sin_periodic (-350) 370 (by decide) (by decide)).2.1,
   (lv_trigo_sin_periodic (-350) 370 (by decide) (by decide)).2.2 (by decide)⟩

/-- C9: for every 16-bit signed angle `a` whose negation is representable,
`lv_trigo_sin(-a) == -lv_trigo_sin(a)`; and for every 16-bit signed angle `b`
for which `180 - b` is representable, `lv_trigo_sin(180 - b) == lv_trigo_sin(b)`. -/
theorem lv_trigo_sin_symmetry (a b : Int) (_ha : -32768 ≤ a ∧ a ≤ 32767)
    (_hna : -32768 ≤ -a ∧ -a ≤ 32767) (_hb : -32768 ≤ b ∧ b ≤ 32767)
    (_hsb : -32768 ≤ 180 - b ∧ 180 - b ≤ 32767) :
    lv_trigo_sin (-a) = -lv_trigo_sin a ∧ lv_trigo_sin (180 - b) = lv_trigo_sin b := by
  constructor
  · have hn : (a % 360).toNat < 360 := by omega
    have e1 : (-a) % 360 = (((360 - (a % 360).toNat) % 360 : Nat) : Int) := by omega
    have e2 : a % 360 = ((a % 360).toNat : Int) := by omega
    rw [lv_trigo_sin_emod (-a), lv_trigo_sin_emod a, e1, e2]
    exact lv_trigo_sin_neg_fin ⟨(a % 360).toNat, hn⟩
  · have hn : (b % 360).toNat < 360 := by omega
    have e1 : (180 - b) % 360 = (((540 - (b % 360).toNat) % 360 : Nat) : Int) := by omega
    have e2 : b % 360 = ((b % 360).toNat : Int) := by omega
    rw [lv_trigo_sin_emod (180 - b), lv_trigo_sin_emod b, e1, e2]
    exact lv_trigo_sin_suppl_fin ⟨(b % 360).toNat, hn⟩

/-- Witness of C9 at `a = 30`, `b = 200`. -/
theorem lv_trigo_sin_symmetry_witness :
    (((-32768 : Int) ≤ 30 ∧ (30 : Int) ≤ 32767) ∧ ((-32768 : Int) ≤ -30 ∧ (-30 : Int) ≤ 32767) ∧
      ((-32768 : Int) ≤ 200 ∧ (200 : Int) ≤ 32767) ∧
      ((-32768 : Int) ≤ 180 - 200 ∧ (180 : Int) - 200 ≤ 32767)) ∧
    lv_trigo_sin (-30) = -lv_trigo_sin 30 ∧ lv_trigo_sin (180 - 200) = lv_trigo_sin 200 :=
  ⟨by decide, lv_trigo_sin_symmetry 30 200 (by decide) (by decide) (by decide) (by decide)⟩

/-- C10: the cardinal sine values: `lv_trigo_sin(0) == 0`,
`lv_trigo_sin(90) == 32767`, `lv_trigo_sin(-90) == -32767`,
`lv_trigo_sin(180) == 0` and `lv_trigo_sin(270) == -32767`. -/
theorem lv_trigo_sin_cardinal :
    lv_trigo_sin 0 = 0 ∧ lv_trigo_sin 90 = 32767 ∧ lv_trigo_sin (-90) = -32767 ∧
    lv_trigo_sin 180 = 0 ∧ lv_trigo_sin 270 = -32767 := by
  decide

/-! ## Bounds of `lv_trigo_sin`: table index and range -/

/-- The table index depends on the residue modulo 360 only. -/
theorem lv_trigo_sin_index_emod (a : Int) :
    lv_trigo_sin_index a = lv_trigo_sin_index (a % 360) := by
  have h1 := tmod_360_normalised a
  have h2 := tmod_360_normalised (a % 360)
  have h3 : a % 360 % 360 = a % 360 := by omega
  unfold lv_trigo_sin_index
  simp only [h1, h2, h3]

/-- On the residues `0..359` the index is within `0..90`, the result is the
table entry at the index or its negation, and it lies in `[-32767, 32767]`. -/
theorem lv_trigo_sin_index_fin : ∀ n : Fin 360,
    0 ≤ lv_trigo_sin_index ((n.val : Nat) : Int) ∧
    lv_trigo_sin_index ((n.val : Nat) : Int) ≤ 90 ∧
    (lv_trigo_sin_index ((n.val : Nat) : Int)).toNat < sin0_90_table.length ∧
    (lv_trigo_sin ((n.val : Nat) : Int) =
        sin0_90_table.getD (lv_trigo_sin_index ((n.val : Nat) : Int)).toNat 0 ∨
      lv_trigo_sin ((n.val : Nat) : Int) =
        -(sin0_90_table.getD (lv_trigo_sin_index ((n.val : Nat) : Int)).toNat 0)) ∧
    -32767 ≤ lv_trigo_sin ((n.val : Nat) : Int) ∧
    lv_trigo_sin ((n.val : Nat) : Int) ≤ 32767 := by
  decide

/-- C11: for every 16-bit signed angle `a` the table index used by
`lv_trigo_sin` is within `0..90`, inside the 91 entries of the table, the
result is the entry at that index or its negation, and the result lies in
`[-32767, 32767]`. -/
theorem lv_trigo_sin_in_bounds (a : Int) (_ha : -32768 ≤ a ∧ a ≤ 32767) :
    (0 ≤ lv_trigo_sin_index a ∧ lv_trigo_sin_index a ≤ 90) ∧
    (lv_trigo_sin_index a).toNat < sin0_90_table.length ∧
    (lv_trigo_sin a = sin0_90_table.getD (lv_trigo_sin_index a).toNat 0 ∨
      lv_trigo_sin a = -(sin0_90_table.getD (lv_trigo_sin_index a).toNat 0)) ∧
    (-32767 ≤ lv_trigo_sin a ∧ lv_trigo_sin a ≤ 32767) := by
  have hn : (a % 360).toNat < 360 := by omega
  have e : a % 360 = (((a % 360).toNat : Nat) : Int) := by omega
  obtain ⟨h1, h2, h3, h4, h5, h6⟩ := lv_trigo_sin_index_fin ⟨(a % 360).toNat, hn⟩
  rw [lv_trigo_sin_index_emod a, lv_trigo_sin_emod a, e]
  exact ⟨⟨h1, h2⟩, h3, h4, h5, h6⟩

/-- Witness of C11 at `a = -32768`. -/
theorem lv_trigo_sin_in_bounds_witness :
    ((-32768 : Int) ≤ -32768 ∧ (-32768 : Int) ≤ 32767) ∧
    (0 ≤ lv_trigo_sin_index (-32768) ∧ lv_trigo_sin_index (-32768) ≤ 90) ∧
    (lv_trigo_sin_index (-32768)).toNat < sin0_90_table.length ∧
    (lv_trigo_sin (-32768) = sin0_90_table.getD (lv_trigo_sin_index (-32768)).toNat 0 ∨
      lv_trigo_sin (-32768) = -(sin0_90_table.getD (lv_trigo_sin_index (-32768)).toNat 0)) ∧
    (-32767 ≤ lv_trigo_sin (-32768) ∧ lv_trigo_sin (-32768) ≤ 32767) :=
  ⟨by decide, lv_trigo_sin_in_bounds (-32768) (by decide)⟩

/-! ## Precision of `sin0_90_table` against the real sine -/

/-- The truncated exponential series at `x * I`, split into real and imaginary part. -/
theorem exp_I_sum (x : ℝ) :
    (∑ m in Finset.range 10, ((x : ℂ) * Complex.I) ^ m / (m.factorial : ℂ)) =
      (((1 - x ^ 2 / 2 + x ^ 4 / 24 - x ^ 6 / 720 + x ^ 8 / 40320 : ℝ) : ℂ)) +
      (((x - x ^ 3 / 6 + x ^ 5 / 120 - x ^ 7 / 5040 + x ^ 9 / 362880 : ℝ) : ℂ)) * Complex.I := by
  simp only [Finset.sum_range_succ, Finset.range_zero, Finset.sum_empty, Nat.factorial, mul_pow]
  have h2 : Complex.I ^ 2 = -1 := Complex.I_sq
  have h3 : Complex.I ^ 3 = -Complex.I := by rw [pow_succ, h2]; ring
  have h4 : Complex.I ^ 4 = 1 := by rw [pow_succ, h3]; ring_nf; rw [h2]; ring
  have h5 : Complex.I ^ 5 = Complex.I := by rw [pow_succ, h4]; ring
  have h6 : Complex.I ^ 6 = -1 := by rw [pow_succ, h5]; ring_nf; rw [h2]
  have h7 : Complex.I ^ 7 = -Complex.I := by rw [pow_succ, h6]; ring
  have h8 : Complex.I ^ 8 = 1 := by rw [pow_succ, h7]; ring_nf; rw [h2]; ring
  have h9 : Complex.I ^ 9 = Complex.I := by rw [pow_succ, h8]; ring
  rw [h2, h3, h4, h5, h6, h7, h8, h9]
  push_cast
  ring

/-- The Taylor polynomials of degree 8 and 9 approximate cosine and sine on
`[-1, 1]` within `1 / 2500000`. -/
theorem cos_sin_taylor (x : ℝ) (hx : |x| ≤ 1) :
    |Real.cos x - (1 - x ^ 2 / 2 + x ^ 4 / 24 - x ^ 6 / 720 + x ^ 8 / 40320)| ≤ 1 / 2500000 ∧
    |Real.sin x - (x - x ^ 3 / 6 + x ^ 5 / 120 - x ^ 7 / 5040 + x ^ 9 / 362880)|
      ≤ 1 / 2500000 := by
  have habs : Complex.abs ((x : ℂ) * Complex.I) = |x| := by
    rw [map_mul, Complex.abs_I, mul_one, Complex.abs_ofReal]
  have hb := Complex.exp_bound (x := (x : ℂ) * Complex.I) (by rw [habs]; exact hx)
    (n := 10) (by decide)
  rw [exp_I_sum, habs, Complex.exp_mul_I] at hb
  have hpow : |x| ^ 10 ≤ 1 := pow_le_one₀ (abs_nonneg x) hx
  have hconst : ((Nat.succ 10 : ℕ) : ℝ) * ((Nat.factorial 10 : ℝ) * ((10 : ℕ) : ℝ))⁻¹
      ≤ 1 / 2500000 := by
    norm_num [Nat.factorial]
  have hle : Complex.abs (Complex.cos x + Complex.sin x * Complex.I -
      ((((1 - x ^ 2 / 2 + x ^ 4 / 24 - x ^ 6 / 720 + x ^ 8 / 40320 : ℝ) : ℂ)) +
      (((x - x ^ 3 / 6 + x ^ 5 / 120 - x ^ 7 / 5040 + x ^ 9 / 362880 : ℝ) : ℂ)) * Complex.I))
      ≤ 1 / 2500000 := by
    refine le_trans hb ?_
    calc |x| ^ 10 * (((Nat.succ 10 : ℕ) : ℝ) * ((Nat.factorial 10 : ℝ) * ((10 : ℕ) : ℝ))⁻¹)
        ≤ 1 * (1 / 2500000) := by
          apply mul_le_mul hpow hconst _ (by norm_num)
          positivity
      _ = 1 / 2500000 := by ring
  have hz : Complex.cos x + Complex.sin x * Complex.I -
      ((((1 - x ^ 2 / 2 + x ^ 4 / 24 - x ^ 6 / 720 + x ^ 8 / 40320 : ℝ) : ℂ)) +
      (((x - x ^ 3 / 6 + x ^ 5 / 120 - x ^ 7 / 5040 + x ^ 9 / 362880 : ℝ) : ℂ)) * Complex.I) =
      ((Real.cos x - (1 - x ^ 2 / 2 + x ^ 4 / 24 - x ^ 6 / 720 + x ^ 8 / 40320) : ℝ) : ℂ) +
      ((Real.sin x - (x - x ^ 3 / 6 + x ^ 5 / 120 - x ^ 7 / 5040 + x ^ 9 / 362880) : ℝ) : ℂ)
        * Complex.I := by
    rw [← Complex.ofReal_cos, ← Complex.ofReal_sin]
    push_cast
    ring
  rw [hz] at hle
  constructor
  · have h := Complex.abs_re_le_abs
      (((Real.cos x - (1 - x ^ 2 / 2 + x ^ 4 / 24 - x ^ 6 / 720 + x ^ 8 / 40320) : ℝ) : ℂ) +
      ((Real.sin x - (x - x ^ 3 / 6 + x ^ 5 / 120 - x ^ 7 / 5040 + x ^ 9 / 362880) : ℝ) : ℂ)
        * Complex.I)
    rw [Complex.add_re, Complex.ofReal_re, Complex.re_ofReal_mul, Complex.I_re, mul_zero,
      add_zero] at h
    exact le_trans h hle
  · have h := Complex.abs_im_le_abs
      (((Real.cos x - (1 - x ^ 2 / 2 + x ^ 4 / 24 - x ^ 6 / 720 + x ^ 8 / 40320) : ℝ) : ℂ) +
      ((Real.sin x - (x - x ^ 3 / 6 + x ^ 5 / 120 - x ^ 7 / 5040 + x ^ 9 / 362880) : ℝ) : ℂ)
        * Complex.I)
    rw [Complex.add_im, Complex.ofReal_im, Complex.im_ofReal_mul, Complex.I_im, mul_one,
      zero_add] at h
    exact le_trans h hle

/-- A value `T` is within 1 of `32767 * sin θ` when it is so for the Taylor
polynomials of the sine at rational bounds `θl ≤ θ ≤ θu` in `[0, 1]`. -/
theorem sin_close (θ θl θu T : ℝ) (h0 : 0 ≤ θl) (h1 : θl ≤ θ) (h2 : θ ≤ θu) (h3 : θu ≤ 1)
    (hl : T - 1 ≤ 32767 * (θl - θl ^ 3 / 6 + θl ^ 5 / 120 - θl ^ 7 / 5040 + θl ^ 9 / 362880
      - 1 / 2500000))
    (hu : 32767 * (θu - θu ^ 3 / 6 + θu ^ 5 / 120 - θu ^ 7 / 5040 + θu ^ 9 / 362880
      + 1 / 2500000) ≤ T + 1) :
    |T - 32767 * Real.sin θ| ≤ 1 := by
  have hpi := Real.pi_gt_three
  have tl := (cos_sin_taylor θl (by rw [abs_le]; constructor <;> linarith only [h0, h1, h2, h3])).2
  have tu := (cos_sin_taylor θu (by rw [abs_le]; constructor <;> linarith only [h0, h1, h2, h3])).2
  rw [abs_le] at tl tu
  have m1 : Real.sin θl ≤ Real.sin θ :=
    Real.sin_le_sin_of_le_of_le_pi_div_two (by linarith only [h0, hpi]) (by linarith only [h2, h3, hpi]) h1
  have m2 : Real.sin θ ≤ Real.sin θu :=
    Real.sin_le_sin_of_le_of_le_pi_div_two (by linarith only [h0, h1, hpi]) (by linarith only [h3, hpi]) h2
  generalize θl - θl ^ 3 / 6 + θl ^ 5 / 120 - θl ^ 7 / 5040 + θl ^ 9 / 362880 = Pl at tl hl
  generalize θu - θu ^ 3 / 6 + θu ^ 5 / 120 - θu ^ 7 / 5040 + θu ^ 9 / 362880 = Pu at tu hu
  rw [abs_le]
  constructor <;> linarith only [tl.1, tl.2, tu.1, tu.2, m1, m2, hl, hu]

/-- A value `T` is within 1 of `32767 * cos φ` when it is so for the Taylor
polynomials of the cosine at rational bounds `φl ≤ φ ≤ φu` in `[0, 1]`. -/
theorem cos_close (φ φl φu T : ℝ) (h0 : 0 ≤ φl) (h1 : φl ≤ φ) (h2 : φ ≤ φu) (h3 : φu ≤ 1)
    (hl : T - 1 ≤ 32767 * (1 - φu ^ 2 / 2 + φu ^ 4 / 24 - φu ^ 6 / 720 + φu ^ 8 / 40320
      - 1 / 2500000))
    (hu : 32767 * (1 - φl ^ 2 / 2 + φl ^ 4 / 24 - φl ^ 6 / 720 + φl ^ 8 / 40320
      + 1 / 2500000) ≤ T + 1) :
    |T - 32767 * Real.cos φ| ≤ 1 := by
  have hpi := Real.pi_gt_three
  have tl := (cos_sin_taylor φl (by rw [abs_le]; constructor <;> linarith only [h0, h1, h2, h3])).1
  have tu := (cos_sin_taylor φu (by rw [abs_le]; constructor <;> linarith only [h0, h1, h2, h3])).1
  rw [abs_le] at tl tu
  have m1 : Real.cos φ ≤ Real.cos φl :=
    Real.cos_le_cos_of_nonneg_of_le_pi h0 (by linarith only [h2, h3, hpi]) h1
  have m2 : Real.cos φu ≤ Real.cos φ :=
    Real.cos_le_cos_of_nonneg_of_le_pi (by linarith only [h0, h1]) (by linarith only [h3, hpi]) h2
  generalize 1 - φl ^ 2 / 2 + φl ^ 4 / 24 - φl ^ 6 / 720 + φl ^ 8 / 40320 = Pl at tl hu
  generalize 1 - φu ^ 2 / 2 + φu ^ 4 / 24 - φu ^ 6 / 720 + φu ^ 8 / 40320 = Pu at tu hl
  rw [abs_le]
  constructor <;> linarith only [tl.1, tl.2, tu.1, tu.2, m1, m2, hl, hu]

/-- The criterion of `sin_close` for an angle of `k ≤ 45` degrees, with the
bounds `3.141592 < π < 3.141593`. -/
theorem sin_close_deg (k : ℕ) (T : ℝ) (hk : k ≤ 45)
    (hl : T - 1 ≤ 32767 * ((k : ℝ) * 3141592 / 180000000
      - ((k : ℝ) * 3141592 / 180000000) ^ 3 / 6 + ((k : ℝ) * 3141592 / 180000000) ^ 5 / 120
      - ((k : ℝ) * 3141592 / 180000000) ^ 7 / 5040
      + ((k : ℝ) * 3141592 / 180000000) ^ 9 / 362880 - 1 / 2500000))
    (hu : 32767 * ((k : ℝ) * 3141593 / 180000000
      - ((k : ℝ) * 3141593 / 180000000) ^ 3 / 6 + ((k : ℝ) * 3141593 / 180000000) ^ 5 / 120
      - ((k : ℝ) * 3141593 / 180000000) ^ 7 / 5040
      + ((k : ℝ) * 3141593 / 180000000) ^ 9 / 362880 + 1 / 2500000) ≤ T + 1) :
    |T - 32767 * Real.sin ((k : ℝ) * Real.pi / 180)| ≤ 1 := by
  have p1 := Real.pi_gt_d6
  have p2 := Real.pi_lt_d6
  have hk0 : (0 : ℝ) ≤ (k : ℝ) := Nat.cast_nonneg k
  have hk45 : (k : ℝ) ≤ 45 := by exact_mod_cast hk
  refine sin_close _ ((k : ℝ) * 3141592 / 180000000) ((k : ℝ) * 3141593 / 180000000) T
    (by positivity) ?_ ?_ ?_ hl hu
  · have : (k : ℝ) * 3141592 / 180000000 = (k : ℝ) * 3.141592 / 180 := by ring
    rw [this]
    have : (k : ℝ) * 3.141592 ≤ (k : ℝ) * Real.pi := mul_le_mul_of_nonneg_left (le_of_lt p1) hk0
    linarith only [this]
  · have : (k : ℝ) * 3141593 / 180000000 = (k : ℝ) * 3.141593 / 180 := by ring
    rw [this]
    have : (k : ℝ) * Real.pi ≤ (k : ℝ) * 3.141593 := mul_le_mul_of_nonneg_left (le_of_lt p2) hk0
    linarith only [this]
  · linarith only [hk45]

/-- The criterion of `cos_close` for the sine of an angle of `45 ≤ k ≤ 90`
degrees, which is the cosine of `90 - k` degrees. -/
theorem sin_close_deg_hi (k : ℕ) (T : ℝ) (hk : k ≤ 90) (hk45 : 45 ≤ k)
    (hl : T - 1 ≤ 32767 * (1 - (((90 - k : ℕ) : ℝ) * 3141593 / 180000000) ^ 2 / 2
      + (((90 - k : ℕ) : ℝ) * 3141593 / 180000000) ^ 4 / 24
      - (((90 - k : ℕ) : ℝ) * 3141593 / 180000000) ^ 6 / 720
      + (((90 - k : ℕ) : ℝ) * 3141593 / 180000000) ^ 8 / 40320 - 1 / 2500000))
    (hu : 32767 * (1 - (((90 - k : ℕ) : ℝ) * 3141592 / 180000000) ^ 2 / 2
      + (((90 - k : ℕ) : ℝ) * 3141592 / 180000000) ^ 4 / 24
      - (((90 - k : ℕ) : ℝ) * 3141592 / 180000000) ^ 6 / 720
      + (((90 - k : ℕ) : ℝ) * 3141592 / 180000000) ^ 8 / 40320 + 1 / 2500000) ≤ T + 1) :
    |T - 32767 * Real.sin ((k : ℝ) * Real.pi / 180)| ≤ 1 := by
  have p1 := Real.pi_gt_d6
  have p2 := Real.pi_lt_d6
  have hj0 : (0 : ℝ) ≤ ((90 - k : ℕ) : ℝ) := Nat.cast_nonneg _
  have hj45 : ((90 - k : ℕ) : ℝ) ≤ 45 := by
    have : 90 - k ≤ 45 := by omega
    exact_mod_cast this
  have hcast : ((90 - k : ℕ) : ℝ) = 90 - (k : ℝ) := by
    rw [Nat.cast_sub hk]; norm_num
  have hsin : Real.sin ((k : ℝ) * Real.pi / 180) =
      Real.cos (((90 - k : ℕ) : ℝ) * Real.pi / 180) := by
    rw [← Real.sin_pi_div_two_sub, hcast]
    congr 1
    ring
  rw [hsin]
  refine cos_close _ (((90 - k : ℕ) : ℝ) * 3141592 / 180000000)
    (((90 - k : ℕ) : ℝ) * 3141593 / 180000000) T (by positivity) ?_ ?_ ?_ hl hu
  · have : ((90 - k : ℕ) : ℝ) * 3141592 / 180000000 = ((90 - k : ℕ) : ℝ) * 3.141592 / 180 := by
      ring
    rw [this]
    have : ((90 - k : ℕ) : ℝ) * 3.141592 ≤ ((90 - k : ℕ) : ℝ) * Real.pi :=
      mul_le_mul_of_nonneg_left (le_of_lt p1) hj0
    linarith only [this]
  · have : ((90 - k : ℕ) : ℝ) * 3141593 / 180000000 = ((90 - k : ℕ) : ℝ) * 3.141593 / 180 := by
      ring
    rw [this]
    have : ((90 - k : ℕ) : ℝ) * Real.pi ≤ ((90 - k : ℕ) : ℝ) * 3.141593 :=
      mul_le_mul_of_nonneg_left (le_of_lt p2) hj0
    linarith only [this]
  · linarith only [hj45]

set_option maxHeartbeats 4000000 in
/-- Each of the entries `0..45` of `sin0_90_table` is within 1 of `32767 * sin (k°)`. -/
theorem sin0_90_table_close_lo (k : ℕ) (h45 : k ≤ 45) :
    |((sin0_90_table.getD k 0 : Int) : ℝ) - 32767 * Real.sin ((k : ℝ) * Real.pi / 180)| ≤ 1 := by
  interval_cases k <;>
    (apply sin_close_deg _ _ (by norm_num) <;> norm_num [sin0_90_table])

set_option maxHeartbeats 4000000 in
/-- Each of the entries `46..90` of `sin0_90_table` is within 1 of `32767 * sin (k°)`. -/
theorem sin0_90_table_close_hi (k : ℕ) (h46 : 46 ≤ k) (hk : k ≤ 90) :
    |((sin0_90_table.getD k 0 : Int) : ℝ) - 32767 * Real.sin ((k : ℝ) * Real.pi / 180)| ≤ 1 := by
  interval_cases k <;>
    (apply sin_close_deg_hi _ _ (by norm_num) (by norm_num) <;> norm_num [sin0_90_table])

/-- Each of the 91 entries of `sin0_90_table` is within 1 of `32767 * sin (k°)`. -/
theorem sin0_90_table_close (k : ℕ) (hk : k ≤ 90) :
    |((sin0_90_table.getD k 0 : Int) : ℝ) - 32767 * Real.sin ((k : ℝ) * Real.pi / 180)| ≤ 1 := by
  by_cases h45 : k ≤ 45
  · exact sin0_90_table_close_lo k h45
  · exact sin0_90_table_close_hi k (by omega) hk

/-- The quadrant mapping of `lv_trigo_sin` on the residues `0..359`. -/
theorem lv_trigo_sin_quadrants : ∀ n : Fin 360,
    lv_trigo_sin ((n.val : Nat) : Int) =
      if n.val < 90 then sin0_90_table.getD n.val 0
      else if n.val < 180 then sin0_90_table.getD (180 - n.val) 0
      else if n.val < 270 then -(sin0_90_table.getD (n.val - 180) 0)
      else -(sin0_90_table.getD (360 - n.val) 0) := by
  decide

/-- The bound of the table carried to the residues `0..359` by the symmetries
of the sine. -/
theorem lv_trigo_sin_close_residue (n : ℕ) (hn : n < 360) :
    |((lv_trigo_sin ((n : Nat) : Int) : Int) : ℝ) - 32767 * Real.sin ((n : ℝ) * Real.pi / 180)|
      ≤ 1 := by
  have hq := lv_trigo_sin_quadrants ⟨n, hn⟩
  simp only at hq
  rw [hq]
  by_cases h1 : n < 90
  · rw [if_pos h1]
    exact sin0_90_table_close n (by omega)
  · rw [if_neg h1]
    by_cases h2 : n < 180
    · rw [if_pos h2]
      have hc : (n : ℝ) = 180 - ((180 - n : ℕ) : ℝ) := by
        rw [Nat.cast_sub (by omega)]; push_cast; ring
      have hs : Real.sin ((n : ℝ) * Real.pi / 180) =
          Real.sin (((180 - n : ℕ) : ℝ) * Real.pi / 180) := by
        rw [← Real.sin_pi_sub (((180 - n : ℕ) : ℝ) * Real.pi / 180)]
        congr 1
        rw [hc]
        simp only [Nat.cast_sub (show n ≤ 180 by omega)]
        push_cast
        ring
      rw [hs]
      exact sin0_90_table_close (180 - n) (by omega)
    · rw [if_neg h2]
      by_cases h3 : n < 270
      · rw [if_pos h3]
        have hs : Real.sin ((n : ℝ) * Real.pi / 180) =
            -Real.sin (((n - 180 : ℕ) : ℝ) * Real.pi / 180) := by
          rw [← Real.sin_add_pi (((n - 180 : ℕ) : ℝ) * Real.pi / 180)]
          congr 1
          rw [Nat.cast_sub (show 180 ≤ n by omega)]
          push_cast
          ring
        rw [hs]
        have h := sin0_90_table_close (n - 180) (by omega)
        rw [abs_sub_comm] at h
        rw [Int.cast_neg]
        have e : -((sin0_90_table.getD (n - 180) 0 : Int) : ℝ) -
            32767 * -Real.sin (((n - 180 : ℕ) : ℝ) * Real.pi / 180) =
            32767 * Real.sin (((n - 180 : ℕ) : ℝ) * Real.pi / 180) -
            ((sin0_90_table.getD (n - 180) 0 : Int) : ℝ) := by ring
        rw [e]
        exact h
      · rw [if_neg h3]
        have hs : Real.sin ((n : ℝ) * Real.pi / 180) =
            -Real.sin (((360 - n : ℕ) : ℝ) * Real.pi / 180) := by
          rw [← Real.sin_two_pi_sub (((360 - n : ℕ) : ℝ) * Real.pi / 180)]
          congr 1
          rw [Nat.cast_sub (show n ≤ 360 by omega)]
          push_cast
          ring
        rw [hs]
        have h := sin0_90_table_close (360 - n) (by omega)
        rw [abs_sub_comm] at h
        rw [Int.cast_neg]
        have e : -((sin0_90_table.getD (360 - n) 0 : Int) : ℝ) -
            32767 * -Real.sin (((360 - n : ℕ) : ℝ) * Real.pi / 180) =
            32767 * Real.sin (((360 - n : ℕ) : ℝ) * Real.pi / 180) -
            ((sin0_90_table.getD (360 - n) 0 : Int) : ℝ) := by ring
        rw [e]
        exact h

/-- C12: for every 16-bit signed angle `a` (in particular for the angles
`0..90` of the table) the value `lv_trigo_sin(a)` is within 1 unit of the true
scaled sine: `|lv_trigo_sin(a) - 32767 * sin(a degrees)| ≤ 1`. -/
theorem lv_trigo_sin_close (a : Int) (_ha : -32768 ≤ a ∧ a ≤ 32767) :
    |((lv_trigo_sin a : Int) : ℝ) - 32767 * Real.sin ((a : ℝ) * Real.pi / 180)| ≤ 1 := by
  have hn : (a % 360).toNat < 360 := by omega
  have e : a % 360 = (((a % 360).toNat : Nat) : Int) := by omega
  have hdecomp : a = (((a % 360).toNat : Nat) : Int) + (a / 360) * 360 := by omega
  have hs : Real.sin ((a : ℝ) * Real.pi / 180) =
      Real.sin ((((a % 360).toNat : ℕ) : ℝ) * Real.pi / 180) := by
    rw [← Real.sin_add_int_mul_two_pi ((((a % 360).toNat : ℕ) : ℝ) * Real.pi / 180) (a / 360)]
    congr 1
    have hc : (a : ℝ) = (((a % 360).toNat : ℕ) : ℝ) + ((a / 360 : Int) : ℝ) * 360 := by
      exact_mod_cast hdecomp
    rw [hc]
    ring
  rw [lv_trigo_sin_emod a, e, hs]
  exact lv_trigo_sin_close_residue _ hn

/-- Witness of C12 at `a = -100`. -/
theorem lv_trigo_sin_close_witness :
    ((-32768 : Int) ≤ -100 ∧ (-100 : Int) ≤ 32767) ∧
    |((lv_trigo_sin (-100) : Int) : ℝ) - 32767 * Real.sin (((-100 : Int) : ℝ) * Real.pi / 180)|
      ≤ 1 :=
  ⟨by decide, lv_trigo_sin_close (-100) (by decide)⟩

/-! ## Precision, exactness and monotonicity of `lv_sqrt` -/

/-- The first 64 entries of `ci` are at most 8 and those of `cf` at most 255. -/
theorem ci_cf_bounds : ∀ n : Fin 64, ci.getD n.val 0 ≤ 8 ∧ cf.getD n.val 0 ≤ 255 := by
  decide

/-- On the table path the result is the pair of table entries, when the
fields hold at least 16 and 8 bits. -/
theorem lv_sqrt_table (wi wf x : Nat) (hwi : 16 ≤ wi) (hwf : 8 ≤ wf) (h1 : 1 ≤ x)
    (h64 : x ≤ 64) :
    lv_sqrt wi wf x = { i := ci.getD (x - 1) 0, f := cf.getD (x - 1) 0 } := by
  have c : ci.getD (x - 1) 0 ≤ 8 ∧ cf.getD (x - 1) 0 ≤ 255 := ci_cf_bounds ⟨x - 1, by omega⟩
  obtain ⟨c1, c2⟩ := c
  have hpi : 2 ^ 16 ≤ 2 ^ wi := Nat.pow_le_pow_right (by decide) hwi
  have hpf : 2 ^ 8 ≤ 2 ^ wf := Nat.pow_le_pow_right (by decide) hwf
  have h0 : x ≠ 0 := by omega
  have e1 : ci.getD (x - 1) 0 % 2 ^ wi = ci.getD (x - 1) 0 := Nat.mod_eq_of_lt (by omega)
  have e2 : cf.getD (x - 1) 0 % 2 ^ wf = cf.getD (x - 1) 0 := Nat.mod_eq_of_lt (by omega)
  simp only [lv_sqrt, h0, h64, if_true, if_false, e1, e2]

/-- The fixed-point value on the table path. -/
theorem lv_sqrt_table_value (wi wf x : Nat) (hwi : 16 ≤ wi) (hwf : 8 ≤ wf) (h1 : 1 ≤ x)
    (h64 : x ≤ 64) :
    sqrt_value (lv_sqrt wi wf x) = 256 * ci.getD (x - 1) 0 + cf.getD (x - 1) 0 := by
  rw [lv_sqrt_table wi wf x hwi hwf h1 h64]
  rfl

/-- The result for `x = 0`. -/
theorem lv_sqrt_zero (wi wf : Nat) : lv_sqrt wi wf 0 = { i := 0, f := 0 } := by
  simp [lv_sqrt]

/-- On the loop path the result is the accumulator split at bit 8. -/
theorem lv_sqrt_loop_eq (wi wf x : Nat) (hwi : 16 ≤ wi) (hwf : 8 ≤ wf) (h64 : 64 < x)
    (hx : x < 2 ^ 32) :
    lv_sqrt wi wf x =
      { i := (sqrt_loop (BITSPERLONG / 2 + 8) { x := x, a := 0, r := 0, e := 0 }).a / 256,
        f := (sqrt_loop (BITSPERLONG / 2 + 8) { x := x, a := 0, r := 0, e := 0 }).a % 256 } := by
  have hi := lv_sqrt_loop_i wi wf x hwi h64 hx
  have hf := lv_sqrt_loop_f wi wf x hwf h64
  cases h : lv_sqrt wi wf x with
  | mk i f =>
    rw [h] at hi hf
    simp only at hi hf
    rw [hi, hf]

/-- Facts on the table values `V = 256 * ci[n] + cf[n]` for `x = n + 1 = 1..64`:
`V` is `256 * sqrt x` rounded to the nearest integer, its square is within one
percent of `65536 * x`, and `V` is between 1 and 2048. -/
theorem sqrt_table_facts : ∀ n : Fin 64,
    1 ≤ 256 * ci.getD n.val 0 + cf.getD n.val 0 ∧
    256 * ci.getD n.val 0 + cf.getD n.val 0 ≤ 2048 ∧
    (2 * (256 * ci.getD n.val 0 + cf.getD n.val 0) - 1) *
        (2 * (256 * ci.getD n.val 0 + cf.getD n.val 0) - 1) ≤ 4 * 65536 * (n.val + 1) ∧
    4 * 65536 * (n.val + 1) ≤
      (2 * (256 * ci.getD n.val 0 + cf.getD n.val 0) + 1) *
        (2 * (256 * ci.getD n.val 0 + cf.getD n.val 0) + 1) ∧
    100 * ((256 * ci.getD n.val 0 + cf.getD n.val 0) *
        (256 * ci.getD n.val 0 + cf.getD n.val 0) - 65536 * (n.val + 1)) ≤
      65536 * (n.val + 1) ∧
    100 * (65536 * (n.val + 1) - (256 * ci.getD n.val 0 + cf.getD n.val 0) *
        (256 * ci.getD n.val 0 + cf.getD n.val 0)) ≤ 65536 * (n.val + 1) := by
  decide

/-- The table values are monotone over `x = 1..64`. -/
theorem sqrt_table_mono : ∀ n m : Fin 64, n ≤ m →
    256 * ci.getD n.val 0 + cf.getD n.val 0 ≤ 256 * ci.getD m.val 0 + cf.getD m.val 0 := by
  decide

/-- The table entries at the perfect squares `1, 4, ..., 64`. -/
theorem sqrt_table_squares : ∀ k : Fin 8,
    ci.getD ((k.val + 1) * (k.val + 1) - 1) 0 = k.val + 1 ∧
    cf.getD ((k.val + 1) * (k.val + 1) - 1) 0 = 0 := by
  decide

/-- Comparison of squares gives comparison of the numbers. -/
theorem lt_of_mul_self_lt (a b : Nat) (h : a * a < b * b) : a < b := by
  by_contra hlt
  have h1 : b ≤ a := by omega
  have h2 := Nat.mul_le_mul h1 h1
  omega

/-- Comparison of squares gives comparison of the numbers. -/
theorem le_of_mul_self_le (a b : Nat) (h : a * a ≤ b * b) : a ≤ b := by
  by_contra hlt
  have h1 : b + 1 ≤ a := by omega
  have h2 := Nat.mul_le_mul h1 h1
  have e : (b + 1) * (b + 1) = b * b + 2 * b + 1 := by ring
  omega

/-- On the loop path the accumulator is at least 2048. -/
theorem sqrt_loop_ge (x : Nat) (h64 : 64 < x) (hx : x < 2 ^ 32) :
    2048 ≤ (sqrt_loop (BITSPERLONG / 2 + 8) { x := x, a := 0, r := 0, e := 0 }).a := by
  obtain ⟨_, h2, _⟩ := sqrt_loop_result x hx
  have h3 : 2048 * 2048 < ((sqrt_loop (BITSPERLONG / 2 + 8) { x := x, a := 0, r := 0, e := 0 }).a
      + 1) * ((sqrt_loop (BITSPERLONG / 2 + 8) { x := x, a := 0, r := 0, e := 0 }).a + 1) := by
    omega
  have h4 := lt_of_mul_self_lt _ _ h3
  omega

/-- C13: for every `x` in `[1, 10000]` the square of the fixed-point value
`V = 256 * i + f` of `lv_sqrt(x)` is within one percent of `65536 * x`:
`100 * |V * V - 65536 * x| ≤ 65536 * x`. -/
theorem lv_sqrt_one_percent (wi wf x : Nat) (hwi : 16 ≤ wi) (hwf : 8 ≤ wf) (h1 : 1 ≤ x)
    (h2 : x ≤ 10000) :
    100 * |(sqrt_value (lv_sqrt wi wf x) : Int) * (sqrt_value (lv_sqrt wi wf x) : Int)
        - 65536 * (x : Int)| ≤ 65536 * (x : Int) := by
  have key : 100 * (sqrt_value (lv_sqrt wi wf x) * sqrt_value (lv_sqrt wi wf x) - 65536 * x)
        ≤ 65536 * x ∧
      100 * (65536 * x - sqrt_value (lv_sqrt wi wf x) * sqrt_value (lv_sqrt wi wf x))
        ≤ 65536 * x := by
    by_cases h64 : x ≤ 64
    · rw [lv_sqrt_table_value wi wf x hwi hwf h1 h64]
      have t := sqrt_table_facts ⟨x - 1, by omega⟩
      have e : x - 1 + 1 = x := by omega
      simp only [e] at t
      exact ⟨t.2.2.2.2.1, t.2.2.2.2.2⟩
    · have hx : x < 2 ^ 32 := by omega
      rw [lv_sqrt_loop_value wi wf x hwi hwf (by omega) hx]
      obtain ⟨r1, r2, _⟩ := sqrt_loop_result x hx
      have hge := sqrt_loop_ge x (by omega) hx
      generalize (sqrt_loop (BITSPERLONG / 2 + 8) { x := x, a := 0, r := 0, e := 0 }).a = a
        at r1 r2 hge
      have e2 : (a + 1) * (a + 1) = a * a + 2 * a + 1 := by ring
      have h200 : 200 * a ≤ a * a := Nat.mul_le_mul_right a (by omega)
      constructor <;> omega
  generalize sqrt_value (lv_sqrt wi wf x) = V at key
  have hc : ((V * V : Nat) : Int) = (V : Int) * (V : Int) := by push_cast; ring
  rw [← hc]
  generalize V * V = W at key
  rcases le_total ((W : Int) - 65536 * (x : Int)) 0 with h | h
  · rw [abs_of_nonpos h]
    omega
  · rw [abs_of_nonneg h]
    omega

/-- Witness of C13 at `x = 10000` with 16-bit fields. -/
theorem lv_sqrt_one_percent_witness :
    (16 ≤ 16 ∧ 8 ≤ 16 ∧ 1 ≤ 10000 ∧ 10000 ≤ 10000) ∧
    100 * |(sqrt_value (lv_sqrt 16 16 10000) : Int) * (sqrt_value (lv_sqrt 16 16 10000) : Int)
        - 65536 * ((10000 : Nat) : Int)| ≤ 65536 * ((10000 : Nat) : Int) :=
  ⟨by decide, lv_sqrt_one_percent 16 16 10000 (by decide) (by decide) (by decide) (by decide)⟩

/-- C14: perfect squares are exact: `lv_sqrt(0) == (0, 0)`,
`lv_sqrt(64) == (8, 0)`, and `lv_sqrt(k * k) == (k, 0)` for every `k` with
`1 ≤ k ≤ 65535`, on the table path (`k ≤ 8`) and on the loop path alike. -/
theorem lv_sqrt_perfect_square (wi wf k : Nat) (hwi : 16 ≤ wi) (hwf : 8 ≤ wf) (hk1 : 1 ≤ k)
    (hk2 : k ≤ 65535) :
    lv_sqrt wi wf 0 = { i := 0, f := 0 } ∧ lv_sqrt wi wf 64 = { i := 8, f := 0 } ∧
    lv_sqrt wi wf (k * k) = { i := k, f := 0 } := by
  refine ⟨lv_sqrt_zero wi wf, ?_, ?_⟩
  · rw [lv_sqrt_table wi wf 64 hwi hwf (by omega) (by omega)]
    decide
  · by_cases h8 : k ≤ 8
    · have hkk1 : 1 ≤ k * k := Nat.mul_le_mul hk1 hk1
      have hkk2 : k * k ≤ 64 := Nat.mul_le_mul h8 h8
      rw [lv_sqrt_table wi wf (k * k) hwi hwf hkk1 hkk2]
      have t := sqrt_table_squares ⟨k - 1, by omega⟩
      have e : k - 1 + 1 = k := by omega
      simp only [e] at t
      rw [t.1, t.2]
    · have h9 : 9 ≤ k := by omega
      have hkk1 : 81 ≤ k * k := Nat.mul_le_mul h9 h9
      have hkk2 : k * k ≤ 65535 * 65535 := Nat.mul_le_mul hk2 hk2
      have hx : k * k < 2 ^ 32 := by omega
      rw [lv_sqrt_loop_eq wi wf (k * k) hwi hwf (by omega) hx]
      obtain ⟨r1, r2, _⟩ := sqrt_loop_result (k * k) hx
      generalize (sqrt_loop (BITSPERLONG / 2 + 8) { x := k * k, a := 0, r := 0, e := 0 }).a = a
        at r1 r2
      have e : 65536 * (k * k) = (256 * k) * (256 * k) := by ring
      rw [e] at r1 r2
      have g1 := le_of_mul_self_le _ _ r1
      have g2 := lt_of_mul_self_lt _ _ r2
      have ha : a = 256 * k := by omega
      subst ha
      congr 1 <;> omega

/-- Witness of C14 at `k = 1000` with 16-bit fields. -/
theorem lv_sqrt_perfect_square_witness :
    (16 ≤ 16 ∧ 8 ≤ 16 ∧ 1 ≤ 1000 ∧ 1000 ≤ 65535) ∧
    lv_sqrt 16 16 0 = { i := 0, f := 0 } ∧ lv_sqrt 16 16 64 = { i := 8, f := 0 } ∧
    lv_sqrt 16 16 (1000 * 1000) = { i := 1000, f := 0 } :=
  ⟨by decide, lv_sqrt_perfect_square 16 16 1000 (by decide) (by decide) (by decide) (by decide)⟩

/-- C15: for every 32-bit `x` the fraction part of `lv_sqrt(x)` is in `0..255`
and the integer part is at most 65535; fields of at least 16 and 8 bits hold
them without truncation, the result being the same as with fields of exactly
16 and 8 bits. -/
theorem lv_sqrt_fields_fit (wi wf x : Nat) (hwi : 16 ≤ wi) (hwf : 8 ≤ wf) (hx : x < 2 ^ 32) :
    (lv_sqrt wi wf x).f ≤ 255 ∧ (lv_sqrt wi wf x).i ≤ 65535 ∧
    lv_sqrt wi wf x = lv_sqrt 16 8 x := by
  by_cases h0 : x = 0
  · subst h0
    rw [lv_sqrt_zero wi wf, lv_sqrt_zero 16 8]
    exact ⟨by decide, by decide, rfl⟩
  · by_cases h64 : x ≤ 64
    · have c : ci.getD (x - 1) 0 ≤ 8 ∧ cf.getD (x - 1) 0 ≤ 255 := ci_cf_bounds ⟨x - 1, by omega⟩
      rw [lv_sqrt_table wi wf x hwi hwf (by omega) h64,
        lv_sqrt_table 16 8 x (by omega) (by omega) (by omega) h64]
      exact ⟨c.2, by have := c.1; show ci.getD (x - 1) 0 ≤ 65535; omega, rfl⟩
    · obtain ⟨_, _, ha⟩ := sqrt_loop_result x hx
      rw [lv_sqrt_loop_eq wi wf x hwi hwf (by omega) hx,
        lv_sqrt_loop_eq 16 8 x (by omega) (by omega) (by omega) hx]
      generalize (sqrt_loop (BITSPERLONG / 2 + 8) { x := x, a := 0, r := 0, e := 0 }).a = a at ha
      refine ⟨?_, ?_, rfl⟩
      · show a % 256 ≤ 255
        omega
      · show a / 256 ≤ 65535
        omega

/-- Witness of C15 at `x = 4294967295` with 32-bit fields. -/
theorem lv_sqrt_fields_fit_witness :
    (16 ≤ 32 ∧ 8 ≤ 32 ∧ 4294967295 < 2 ^ 32) ∧
    (lv_sqrt 32 32 4294967295).f ≤ 255 ∧ (lv_sqrt 32 32 4294967295).i ≤ 65535 ∧
    lv_sqrt 32 32 4294967295 = lv_sqrt 16 8 4294967295 :=
  ⟨by decide, lv_sqrt_fields_fit 32 32 4294967295 (by decide) (by decide) (by decide)⟩

/-- C19: for every `x` in `1..64` the table path returns
`(ci[x-1], cf[x-1])`, whose value `V = 256 * i + f` is `256 * sqrt x` rounded
to the nearest integer, `(2V - 1)^2 ≤ 4 * 65536 * x ≤ (2V + 1)^2`; and `V` is
the value the loop computes for the same `x`, or that value plus 1. -/
theorem lv_sqrt_table_nearest (wi wf x : Nat) (hwi : 16 ≤ wi) (hwf : 8 ≤ wf) (h1 : 1 ≤ x)
    (h64 : x ≤ 64) :
    lv_sqrt wi wf x = { i := ci.getD (x - 1) 0, f := cf.getD (x - 1) 0 } ∧
    1 ≤ sqrt_value (lv_sqrt wi wf x) ∧
    (2 * sqrt_value (lv_sqrt wi wf x) - 1) * (2 * sqrt_value (lv_sqrt wi wf x) - 1)
      ≤ 4 * 65536 * x ∧
    4 * 65536 * x ≤
      (2 * sqrt_value (lv_sqrt wi wf x) + 1) * (2 * sqrt_value (lv_sqrt wi wf x) + 1) ∧
    (sqrt_loop (BITSPERLONG / 2 + 8) { x := x, a := 0, r := 0, e := 0 }).a
      ≤ sqrt_value (lv_sqrt wi wf x) ∧
    sqrt_value (lv_sqrt wi wf x)
      ≤ (sqrt_loop (BITSPERLONG / 2 + 8) { x := x, a := 0, r := 0, e := 0 }).a + 1 := by
  have t := sqrt_table_facts ⟨x - 1, by omega⟩
  have e : x - 1 + 1 = x := by omega
  simp only [e] at t
  obtain ⟨t1, _, t3, t4, _, _⟩ := t
  obtain ⟨r1, r2, _⟩ := sqrt_loop_result x (by omega)
  rw [lv_sqrt_table_value wi wf x hwi hwf h1 h64]
  refine ⟨lv_sqrt_table wi wf x hwi hwf h1 h64, t1, t3, t4, ?_, ?_⟩
  · generalize (sqrt_loop (BITSPERLONG / 2 + 8) { x := x, a := 0, r := 0, e := 0 }).a = a
      at r1 r2
    generalize 256 * ci.getD (x - 1) 0 + cf.getD (x - 1) 0 = V at t1 t3 t4
    have e1 : (2 * a) * (2 * a) = 4 * (a * a) := by ring
    have h : (2 * a) * (2 * a) ≤ (2 * V + 1) * (2 * V + 1) := by omega
    have := le_of_mul_self_le _ _ h
    omega
  · generalize (sqrt_loop (BITSPERLONG / 2 + 8) { x := x, a := 0, r := 0, e := 0 }).a = a
      at r1 r2
    generalize 256 * ci.getD (x - 1) 0 + cf.getD (x - 1) 0 = V at t1 t3 t4
    have e1 : (2 * a + 2) * (2 * a + 2) = 4 * ((a + 1) * (a + 1)) := by ring
    have h : (2 * V - 1) * (2 * V - 1) < (2 * a + 2) * (2 * a + 2) := by omega
    have := lt_of_mul_self_lt _ _ h
    omega

/-- Witness of C19 at `x = 10` with 16-bit fields. -/
theorem lv_sqrt_table_nearest_witness :
    (16 ≤ 16 ∧ 8 ≤ 16 ∧ 1 ≤ 10 ∧ 10 ≤ 64) ∧
    lv_sqrt 16 16 10 = { i := ci.getD (10 - 1) 0, f := cf.getD (10 - 1) 0 } ∧
    1 ≤ sqrt_value (lv_sqrt 16 16 10) ∧
    (2 * sqrt_value (lv_sqrt 16 16 10) - 1) * (2 * sqrt_value (lv_sqrt 16 16 10) - 1)
      ≤ 4 * 65536 * 10 ∧
    4 * 65536 * 10 ≤
      (2 * sqrt_value (lv_sqrt 16 16 10) + 1) * (2 * sqrt_value (lv_sqrt 16 16 10) + 1) ∧
    (sqrt_loop (BITSPERLONG / 2 + 8) { x := 10, a := 0, r := 0, e := 0 }).a
      ≤ sqrt_value (lv_sqrt 16 16 10) ∧
    sqrt_value (lv_sqrt 16 16 10)
      ≤ (sqrt_loop (BITSPERLONG / 2 + 8) { x := 10, a := 0, r := 0, e := 0 }).a + 1 :=
  ⟨by decide, lv_sqrt_table_nearest 16 16 10 (by decide) (by decide) (by decide) (by decide)⟩

/-- C20: `lv_sqrt` is monotone over the 32-bit inputs, across the boundary
between table and loop as well: `x ≤ y` gives
`256 * i(x) + f(x) ≤ 256 * i(y) + f(y)`. -/
theorem lv_sqrt_monotone (wi wf x y : Nat) (hwi : 16 ≤ wi) (hwf : 8 ≤ wf) (hxy : x ≤ y)
    (hy : y < 2 ^ 32) :
    sqrt_value (lv_sqrt wi wf x) ≤ sqrt_value (lv_sqrt wi wf y) := by
  by_cases hx0 : x = 0
  · subst hx0
    rw [lv_sqrt_zero]
    exact Nat.zero_le _
  · by_cases hy64 : y ≤ 64
    · rw [lv_sqrt_table_value wi wf x hwi hwf (by omega) (by omega),
        lv_sqrt_table_value wi wf y hwi hwf (by omega) hy64]
      exact sqrt_table_mono ⟨x - 1, by omega⟩ ⟨y - 1, by omega⟩ (by
        show x - 1 ≤ y - 1
        omega)
    · have hge := sqrt_loop_ge y (by omega) hy
      rw [lv_sqrt_loop_value wi wf y hwi hwf (by omega) hy]
      by_cases hx64 : x ≤ 64
      · rw [lv_sqrt_table_value wi wf x hwi hwf (by omega) hx64]
        have t : 256 * ci.getD (x - 1) 0 + cf.getD (x - 1) 0 ≤ 2048 :=
          (sqrt_table_facts ⟨x - 1, by omega⟩).2.1
        omega
      · have hx : x < 2 ^ 32 := by omega
        rw [lv_sqrt_loop_value wi wf x hwi hwf (by omega) hx]
        obtain ⟨p1, _, _⟩ := sqrt_loop_result x hx
        obtain ⟨_, q2, _⟩ := sqrt_loop_result y hy
        have h : (sqrt_loop (BITSPERLONG / 2 + 8) { x := x, a := 0, r := 0, e := 0 }).a *
            (sqrt_loop (BITSPERLONG / 2 + 8) { x := x, a := 0, r := 0, e := 0 }).a <
            ((sqrt_loop (BITSPERLONG / 2 + 8) { x := y, a := 0, r := 0, e := 0 }).a + 1) *
            ((sqrt_loop (BITSPERLONG / 2 + 8) { x := y, a := 0, r := 0, e := 0 }).a + 1) := by
          omega
        have := lt_of_mul_self_lt _ _ h
        omega

/-- Witness of C20 across the boundary, at `x = 64`, `y = 65` with 16-bit fields. -/
theorem lv_sqrt_monotone_witness :
    (16 ≤ 16 ∧ 8 ≤ 16 ∧ 64 ≤ 65 ∧ 65 < 2 ^ 32) ∧
    sqrt_value (lv_sqrt 16 16 64) ≤ sqrt_value (lv_sqrt 16 16 65) :=
  ⟨by decide, lv_sqrt_monotone 16 16 64 65 (by decide) (by decide) (by decide) (by decide)⟩

/-! ## Range of `lv_bezier3` -/

/-- A quotient by 1024 of a product of two numbers up to 1024 is at most 1024,
and the product is at most `2 ^ 20`. -/
theorem mul_le_of_le_1024 (a b : Nat) (ha : a ≤ 1024) (hb : b ≤ 1024) :
    a * b ≤ 1048576 ∧ a * b / 2 ^ 10 ≤ 1024 := by
  have h := Nat.mul_le_mul ha hb
  constructor <;> omega

/-- The arithmetic of `lv_bezier3` on natural numbers: with `s + t = 1024` and
control values up to 1024 no product reaches `2 ^ 32`, and the four terms add
up to at most 1024. -/
theorem bezier_core (s t n0 n1 n2 n3 : Nat) (hst : s + t = 1024) (h0 : n0 ≤ 1024)
    (h1 : n1 ≤ 1024) (h2 : n2 ≤ 1024) (h3 : n3 ≤ 1024) :
    (s * s < 2 ^ 32 ∧ s * s / 2 ^ 10 * s < 2 ^ 32 ∧ t * t < 2 ^ 32 ∧
      t * t / 2 ^ 10 * t < 2 ^ 32 ∧
      s * s / 2 ^ 10 * s / 2 ^ 10 * n0 < 2 ^ 32 ∧
      3 * (s * s / 2 ^ 10) < 2 ^ 32 ∧ 3 * (s * s / 2 ^ 10) * t < 2 ^ 32 ∧
      3 * (s * s / 2 ^ 10) * t * n1 < 2 ^ 32 ∧
      3 * s < 2 ^ 32 ∧ 3 * s * (t * t / 2 ^ 10) < 2 ^ 32 ∧
      3 * s * (t * t / 2 ^ 10) * n2 < 2 ^ 32 ∧
      t * t / 2 ^ 10 * t / 2 ^ 10 * n3 < 2 ^ 32) ∧
    s * s / 2 ^ 10 * s / 2 ^ 10 * n0 / 2 ^ 10 + 3 * (s * s / 2 ^ 10) * t * n1 / 2 ^ 20
      + 3 * s * (t * t / 2 ^ 10) * n2 / 2 ^ 20 + t * t / 2 ^ 10 * t / 2 ^ 10 * n3 / 2 ^ 10
      ≤ 1024 := by
  have hs : s ≤ 1024 := by omega
  have ht : t ≤ 1024 := by omega
  obtain ⟨hss, hA⟩ := mul_le_of_le_1024 s s hs hs
  obtain ⟨htt, hC⟩ := mul_le_of_le_1024 t t ht ht
  generalize hAdef : s * s / 2 ^ 10 = A at hA
  generalize hCdef : t * t / 2 ^ 10 = C at hC
  obtain ⟨hAs, hB⟩ := mul_le_of_le_1024 A s hA hs
  obtain ⟨hCt, hD⟩ := mul_le_of_le_1024 C t hC ht
  generalize hBdef : A * s / 2 ^ 10 = B at hB
  generalize hDdef : C * t / 2 ^ 10 = D at hD
  obtain ⟨hBn, _⟩ := mul_le_of_le_1024 B n0 hB h0
  obtain ⟨hDn, _⟩ := mul_le_of_le_1024 D n3 hD h3
  obtain ⟨hAt, _⟩ := mul_le_of_le_1024 A t hA ht
  obtain ⟨hsC, _⟩ := mul_le_of_le_1024 s C hs hC
  have hAtn : A * t * n1 ≤ 1048576 * 1024 := Nat.mul_le_mul hAt h1
  have hsCn : s * C * n2 ≤ 1048576 * 1024 := Nat.mul_le_mul hsC h2
  have e1 : 3 * A * t = 3 * (A * t) := by ring
  have e2 : 3 * A * t * n1 = 3 * (A * t * n1) := by ring
  have e3 : 3 * s * C = 3 * (s * C) := by ring
  have e4 : 3 * s * C * n2 = 3 * (s * C * n2) := by ring
  refine ⟨⟨by omega, by omega, by omega, by omega, by omega, by omega, by omega, by omega,
    by omega, by omega, by omega, by omega⟩, ?_⟩
  -- the four terms, scaled by `2 ^ 20`, are bounded by the terms of `(s + t) ^ 3`
  have k1 : 1024 * A ≤ s * s := by rw [← hAdef]; exact Nat.mul_div_le (s * s) (2 ^ 10)
  have k2 : 1024 * C ≤ t * t := by rw [← hCdef]; exact Nat.mul_div_le (t * t) (2 ^ 10)
  have k3 : 1024 * B ≤ A * s := by rw [← hBdef]; exact Nat.mul_div_le (A * s) (2 ^ 10)
  have k4 : 1024 * D ≤ C * t := by rw [← hDdef]; exact Nat.mul_div_le (C * t) (2 ^ 10)
  have m1 : 1024 * A * s ≤ s * s * s := Nat.mul_le_mul_right s k1
  have m2 : 1024 * C * t ≤ t * t * t := Nat.mul_le_mul_right t k2
  have m3 : 1024 * A * t ≤ s * s * t := Nat.mul_le_mul_right t k1
  have m4 : s * (1024 * C) ≤ s * (t * t) := Nat.mul_le_mul_left s k2
  have v1 : B * n0 / 2 ^ 10 ≤ B := by
    have : B * n0 ≤ B * 1024 := Nat.mul_le_mul_left B h0
    omega
  have v4 : D * n3 / 2 ^ 10 ≤ D := by
    have : D * n3 ≤ D * 1024 := Nat.mul_le_mul_left D h3
    omega
  have v2 : 3 * A * t * n1 / 2 ^ 20 ≤ 3 * (A * t) / 1024 := by
    have : A * t * n1 ≤ A * t * 1024 := Nat.mul_le_mul_left (A * t) h1
    omega
  have v3 : 3 * s * C * n2 / 2 ^ 20 ≤ 3 * (s * C) / 1024 := by
    have : s * C * n2 ≤ s * C * 1024 := Nat.mul_le_mul_left (s * C) h2
    omega
  have cube : s * s * s + 3 * (s * s * t) + 3 * (s * (t * t)) + t * t * t = 1024 * 1024 * 1024 := by
    have : (s + t) * (s + t) * (s + t) = 1024 * 1024 * 1024 := by rw [hst]
    rw [← this]; ring
  have a1 : 1024 * A * s = 1024 * (A * s) := by ring
  have a2 : 1024 * C * t = 1024 * (C * t) := by ring
  have a3 : 1024 * A * t = 1024 * (A * t) := by ring
  have a4 : s * (1024 * C) = 1024 * (s * C) := by ring
  omega

/-- C16: for every `t` in `[0, 1024]` and control values `u0..u3` in
`[0, 1024]`, `lv_bezier3(t, u0, u1, u2, u3)` lies in `[0, 1024]`, and no
32-bit unsigned product or sum of the computation wraps. -/
theorem lv_bezier3_range (t : Nat) (u0 u1 u2 u3 : Int) (ht : t ≤ 1024)
    (h0 : 0 ≤ u0 ∧ u0 ≤ 1024) (h1 : 0 ≤ u1 ∧ u1 ≤ 1024) (h2 : 0 ≤ u2 ∧ u2 ≤ 1024)
    (h3 : 0 ≤ u3 ∧ u3 ≤ 1024) :
    (0 ≤ lv_bezier3 t u0 u1 u2 u3 ∧ lv_bezier3 t u0 u1 u2 u3 ≤ 1024) ∧
    lv_bezier3_exact t u0 u1 u2 u3 = true := by
  have e0 : toU32 u0 = u0.toNat := by unfold toU32; omega
  have e1 : toU32 u1 = u1.toNat := by unfold toU32; omega
  have e2 : toU32 u2 = u2.toNat := by unfold toU32; omega
  have e3 : toU32 u3 = u3.toNat := by unfold toU32; omega
  have es : u32 (1024 + 2 ^ 32 - t) = 1024 - t := by unfold u32; omega
  obtain ⟨⟨p1, p2, p3, p4, p5, p6, p7, p8, p9, p10, p11, p12⟩, hsum⟩ :=
    bezier_core (1024 - t) t u0.toNat u1.toNat u2.toNat u3.toNat (by omega) (by omega)
      (by omega) (by omega) (by omega)
  generalize u0.toNat = n0 at *
  generalize u1.toNat = n1 at *
  generalize u2.toNat = n2 at *
  generalize u3.toNat = n3 at *
  generalize 1024 - t = s at *
  have q1 : (s * s / 2 ^ 10 * s / 2 ^ 10 * n0 / 2 ^ 10 + 3 * (s * s / 2 ^ 10) * t * n1 / 2 ^ 20)
      % 2 ^ 32 = s * s / 2 ^ 10 * s / 2 ^ 10 * n0 / 2 ^ 10 + 3 * (s * s / 2 ^ 10) * t * n1 / 2 ^ 20 :=
    Nat.mod_eq_of_lt (by omega)
  have q2 : (s * s / 2 ^ 10 * s / 2 ^ 10 * n0 / 2 ^ 10 + 3 * (s * s / 2 ^ 10) * t * n1 / 2 ^ 20
      + 3 * s * (t * t / 2 ^ 10) * n2 / 2 ^ 20) % 2 ^ 32 =
      s * s / 2 ^ 10 * s / 2 ^ 10 * n0 / 2 ^ 10 + 3 * (s * s / 2 ^ 10) * t * n1 / 2 ^ 20
      + 3 * s * (t * t / 2 ^ 10) * n2 / 2 ^ 20 :=
    Nat.mod_eq_of_lt (by omega)
  have q3 : (s * s / 2 ^ 10 * s / 2 ^ 10 * n0 / 2 ^ 10 + 3 * (s * s / 2 ^ 10) * t * n1 / 2 ^ 20
      + 3 * s * (t * t / 2 ^ 10) * n2 / 2 ^ 20 + t * t / 2 ^ 10 * t / 2 ^ 10 * n3 / 2 ^ 10)
      % 2 ^ 32 =
      s * s / 2 ^ 10 * s / 2 ^ 10 * n0 / 2 ^ 10 + 3 * (s * s / 2 ^ 10) * t * n1 / 2 ^ 20
      + 3 * s * (t * t / 2 ^ 10) * n2 / 2 ^ 20 + t * t / 2 ^ 10 * t / 2 ^ 10 * n3 / 2 ^ 10 :=
    Nat.mod_eq_of_lt (by omega)
  constructor
  · unfold lv_bezier3
    simp only [es, e0, e1, e2, e3]
    simp only [u32, Nat.shiftRight_eq_div_pow, Nat.mod_eq_of_lt p1, Nat.mod_eq_of_lt p2,
      Nat.mod_eq_of_lt p3, Nat.mod_eq_of_lt p4, Nat.mod_eq_of_lt p5, Nat.mod_eq_of_lt p6,
      Nat.mod_eq_of_lt p7, Nat.mod_eq_of_lt p8, Nat.mod_eq_of_lt p9, Nat.mod_eq_of_lt p10,
      Nat.mod_eq_of_lt p11, Nat.mod_eq_of_lt p12, q1, q2, q3]
    unfold toI32
    split <;> omega
  · unfold lv_bezier3_exact
    simp only [es, e0, e1, e2, e3]
    simp only [u32, Nat.shiftRight_eq_div_pow, Nat.mod_eq_of_lt p1, Nat.mod_eq_of_lt p2,
      Nat.mod_eq_of_lt p3, Nat.mod_eq_of_lt p4, Nat.mod_eq_of_lt p5, Nat.mod_eq_of_lt p6,
      Nat.mod_eq_of_lt p7, Nat.mod_eq_of_lt p8, Nat.mod_eq_of_lt p9, Nat.mod_eq_of_lt p10,
      Nat.mod_eq_of_lt p11, Nat.mod_eq_of_lt p12]
    simp only [Bool.and_eq_true, decide_eq_true_eq]
    refine ⟨⟨⟨⟨⟨⟨⟨⟨⟨⟨⟨⟨⟨⟨⟨?_, ?_⟩, ?_⟩, ?_⟩, ?_⟩, ?_⟩, ?_⟩, ?_⟩, ?_⟩, ?_⟩, ?_⟩, ?_⟩, ?_⟩, ?_⟩, ?_⟩, ?_⟩ <;>
      omega

/-- Witness of C16 at `t = 512` with control values 0, 1024, 0, 1024. -/
theorem lv_bezier3_range_witness :
    (512 ≤ 1024 ∧ ((0 : Int) ≤ 0 ∧ (0 : Int) ≤ 1024) ∧ ((0 : Int) ≤ 1024 ∧ (1024 : Int) ≤ 1024)) ∧
    (0 ≤ lv_bezier3 512 0 1024 0 1024 ∧ lv_bezier3 512 0 1024 0 1024 ≤ 1024) ∧
    lv_bezier3_exact 512 0 1024 0 1024 = true :=
  ⟨by decide, lv_bezier3_range 512 0 1024 0 1024 (by decide) (by decide) (by decide) (by decide)
    (by decide)⟩

/-! ## Divisor and intermediate ranges of `lv_atan2` -/

/-- The function `lv_atan2` in terms of its parts. -/
theorem lv_atan2_parts (x y : Int) :
    lv_atan2 x y =
      if atan2_divisor x y = 0 then none
      else some (atan2_finish (atan2_negflag x y) (atan2_ratio x y)) := by
  unfold lv_atan2 atan2_divisor atan2_negflag atan2_ratio atan2_ux atan2_uy
  by_cases hgt : toU32 (if x < 0 then 0 - x else x) > toU32 (if y < 0 then 0 - y else y)
  · have hne : toU32 (if x < 0 then 0 - x else x) ≠ 0 := by omega
    simp only [hgt, if_true, hne, if_false]
  · simp only [hgt, if_false]

/-- The magnitude of a non-zero `int` is a non-zero `unsigned int`. -/
theorem atan2_ux_eq_zero_iff (x : Int) (hx : -2 ^ 31 ≤ x ∧ x < 2 ^ 31) :
    atan2_ux x = 0 ↔ x = 0 := by
  unfold atan2_ux toU32
  split <;> omega

/-- The magnitude of a non-zero `int` is a non-zero `unsigned int`. -/
theorem atan2_uy_eq_zero_iff (y : Int) (hy : -2 ^ 31 ≤ y ∧ y < 2 ^ 31) :
    atan2_uy y = 0 ↔ y = 0 := by
  unfold atan2_uy toU32
  split <;> omega

/-- C17: for `int` arguments the divisor of the ratio step of `lv_atan2` is
zero exactly when `x` and `y` are both zero, and `lv_atan2` is undefined
(`none`) exactly when the divisor is zero; for `ux > uy` the divisor is `ux`,
which is positive, otherwise it is `uy`, which is positive when `x` and `y`
are not both zero.  (At the most negative `int` the negation `0 - x` is taken
with two's complement wrap-around, which gives the magnitude `2 ^ 31`.) -/
theorem lv_atan2_divisor (x y : Int) (hx : -2 ^ 31 ≤ x ∧ x < 2 ^ 31)
    (hy : -2 ^ 31 ≤ y ∧ y < 2 ^ 31) :
    (atan2_divisor x y = 0 ↔ x = 0 ∧ y = 0) ∧
    (lv_atan2 x y = none ↔ atan2_divisor x y = 0) ∧
    (atan2_ux x > atan2_uy y → atan2_divisor x y = atan2_ux x ∧ 0 < atan2_ux x) ∧
    (¬ atan2_ux x > atan2_uy y → atan2_divisor x y = atan2_uy y ∧
      ((x ≠ 0 ∨ y ≠ 0) → 0 < atan2_uy y)) := by
  have h1 := atan2_ux_eq_zero_iff x hx
  have h2 := atan2_uy_eq_zero_iff y hy
  refine ⟨?_, ?_, ?_, ?_⟩
  · unfold atan2_divisor
    split <;> omega
  · rw [lv_atan2_parts]
    split <;> simp_all
  · intro h
    unfold atan2_divisor
    rw [if_pos h]
    exact ⟨rfl, by omega⟩
  · intro h
    unfold atan2_divisor
    rw [if_neg h]
    refine ⟨rfl, ?_⟩
    intro hnz
    omega

/-- Witness of C17 at `(0, -5)`. -/
theorem lv_atan2_divisor_witness :
    (atan2_divisor 0 (-5) = 0 ↔ (0 : Int) = 0 ∧ (-5 : Int) = 0) ∧
    (lv_atan2 0 (-5) = none ↔ atan2_divisor 0 (-5) = 0) ∧
    (atan2_ux 0 > atan2_uy (-5) → atan2_divisor 0 (-5) = atan2_ux 0 ∧ 0 < atan2_ux 0) ∧
    (¬ atan2_ux 0 > atan2_uy (-5) → atan2_divisor 0 (-5) = atan2_uy (-5) ∧
      (((0 : Int) ≠ 0 ∨ (-5 : Int) ≠ 0) → 0 < atan2_uy (-5))) :=
  lv_atan2_divisor 0 (-5) (by decide) (by decide)

/-- Within the bound of the source comment `ux` is the absolute value of `x`. -/
theorem atan2_ux_small (x : Int) (hx : -1456 ≤ x ∧ x ≤ 1456) : atan2_ux x = x.natAbs := by
  unfold atan2_ux
  rw [toU32_of_small _ (by split <;> omega) (by split <;> omega)]
  split <;> omega

/-- Within the bound of the source comment `uy` is the absolute value of `y`. -/
theorem atan2_uy_small (y : Int) (hy : -1456 ≤ y ∧ y ≤ 1456) : atan2_uy y = y.natAbs := by
  unfold atan2_uy
  rw [toU32_of_small _ (by split <;> omega) (by split <;> omega)]
  split <;> omega

/-- Within the bound the scaled ratio is at most 45. -/
theorem atan2_ratio_le (x y : Int) (hx : -1456 ≤ x ∧ x ≤ 1456) (hy : -1456 ≤ y ∧ y ≤ 1456) :
    atan2_ratio x y ≤ 45 := by
  have hmx : u32 (x.natAbs * 45) = x.natAbs * 45 := by unfold u32; omega
  have hmy : u32 (y.natAbs * 45) = y.natAbs * 45 := by unfold u32; omega
  unfold atan2_ratio
  rw [atan2_ux_small x hx, atan2_uy_small y hy, hmx, hmy]
  exact atan2_quot_le x.natAbs y.natAbs

/-- The flags take one of eight values. -/
theorem atan2_negflag_mem (x y : Int) :
    atan2_negflag x y ∈ [0, 1, 2, 3, 16, 17, 18, 19] := by
  unfold atan2_negflag
  by_cases h1 : x < 0 <;> by_cases h2 : y < 0 <;>
    by_cases h3 : atan2_ux x > atan2_uy y <;> simp [h1, h2, h3, u8]

/-- For each of the eight flag values and each ratio `0..45`: the compensation
is at most 4 and keeps the degree at most 45, the degree of the quadrant is at
most 90, no subtraction underflows, and the result is at most 360. -/
theorem atan2_finish_steps : ∀ f ∈ [0, 1, 2, 3, 16, 17, 18, 19], ∀ d : Fin 46,
    atan2_comp (u8 d.val) ≤ 4 ∧ d.val + atan2_comp (u8 d.val) ≤ 45 ∧
    atan2_octant_degree f d.val ≤ 90 ∧ atan2_finish_exact f d.val = true ∧
    atan2_finish f d.val ≤ 360 := by
  decide

/-- C18: for every pair `(x, y)` not both zero with `|x|, |y| ≤ 1456`,
`lv_atan2(x, y)` is `atan2_finish` of the flags and the raw ratio; the raw
ratio is in `[0, 45]`, the compensation is between 0 and 4 and keeps the
degree in `[0, 45]`, the degree of the quadrant is in `[0, 90]`, no unsigned
subtraction underflows, and the result lies in the closed range `[0, 360]`. -/
theorem lv_atan2_steps (x y : Int) (hx : -1456 ≤ x ∧ x ≤ 1456) (hy : -1456 ≤ y ∧ y ≤ 1456)
    (hnz : x ≠ 0 ∨ y ≠ 0) :
    lv_atan2 x y = some (atan2_finish (atan2_negflag x y) (atan2_ratio x y)) ∧
    atan2_ratio x y ≤ 45 ∧
    atan2_comp (u8 (atan2_ratio x y)) ≤ 4 ∧
    atan2_ratio x y + atan2_comp (u8 (atan2_ratio x y)) ≤ 45 ∧
    atan2_octant_degree (atan2_negflag x y) (atan2_ratio x y) ≤ 90 ∧
    atan2_finish_exact (atan2_negflag x y) (atan2_ratio x y) = true ∧
    atan2_finish (atan2_negflag x y) (atan2_ratio x y) ≤ 360 := by
  have hd : atan2_divisor x y ≠ 0 := by
    have h1 := atan2_ux_eq_zero_iff x (by omega)
    have h2 := atan2_uy_eq_zero_iff y (by omega)
    unfold atan2_divisor
    split <;> omega
  have hq := atan2_ratio_le x y hx hy
  obtain ⟨c1, c2, c3, c4, c5⟩ :=
    atan2_finish_steps _ (atan2_negflag_mem x y) ⟨atan2_ratio x y, by omega⟩
  refine ⟨?_, hq, c1, c2, c3, c4, c5⟩
  rw [lv_atan2_parts, if_neg hd]

/-- Witness of C18 at `(-1, 46)`. -/
theorem lv_atan2_steps_witness :
    (((-1456 : Int) ≤ -1 ∧ (-1 : Int) ≤ 1456) ∧ ((-1456 : Int) ≤ 46 ∧ (46 : Int) ≤ 1456) ∧
      ((-1 : Int) ≠ 0 ∨ (46 : Int) ≠ 0)) ∧
    lv_atan2 (-1) 46 = some (atan2_finish (atan2_negflag (-1) 46) (atan2_ratio (-1) 46)) ∧
    atan2_ratio (-1) 46 ≤ 45 ∧
    atan2_comp (u8 (atan2_ratio (-1) 46)) ≤ 4 ∧
    atan2_ratio (-1) 46 + atan2_comp (u8 (atan2_ratio (-1) 46)) ≤ 45 ∧
    atan2_octant_degree (atan2_negflag (-1) 46) (atan2_ratio (-1) 46) ≤ 90 ∧
    atan2_finish_exact (atan2_negflag (-1) 46) (atan2_ratio (-1) 46) = true ∧
    atan2_finish (atan2_negflag (-1) 46) (atan2_ratio (-1) 46) ≤ 360 :=
  ⟨by decide, lv_atan2_steps (-1) 46 (by decide) (by decide) (by decide)⟩

/-! ## Truncation error of `lv_bezier3` -/

/-- The truncation error of the arithmetic of `lv_bezier3` on natural numbers:
with `s + t = 1024` and control values up to 1024 the sum `r` of the four
terms satisfies `2 ^ 30 * r ≤ E < 2 ^ 30 * (r + 14)` for the exact blend `E`. -/
theorem bezier_error (s t n0 n1 n2 n3 : Nat) (hst : s + t = 1024) (h0 : n0 ≤ 1024)
    (h1 : n1 ≤ 1024) (h2 : n2 ≤ 1024) (h3 : n3 ≤ 1024) :
    2 ^ 30 * (s * s / 2 ^ 10 * s / 2 ^ 10 * n0 / 2 ^ 10 + 3 * (s * s / 2 ^ 10) * t * n1 / 2 ^ 20
      + 3 * s * (t * t / 2 ^ 10) * n2 / 2 ^ 20 + t * t / 2 ^ 10 * t / 2 ^ 10 * n3 / 2 ^ 10)
      ≤ s * s * s * n0 + 3 * (s * s) * t * n1 + 3 * s * (t * t) * n2 + t * t * t * n3 ∧
    s * s * s * n0 + 3 * (s * s) * t * n1 + 3 * s * (t * t) * n2 + t * t * t * n3 <
      2 ^ 30 * (s * s / 2 ^ 10 * s / 2 ^ 10 * n0 / 2 ^ 10 + 3 * (s * s / 2 ^ 10) * t * n1 / 2 ^ 20
      + 3 * s * (t * t / 2 ^ 10) * n2 / 2 ^ 20 + t * t / 2 ^ 10 * t / 2 ^ 10 * n3 / 2 ^ 10 + 14) := by
  have hs : s ≤ 1024 := by omega
  have ht : t ≤ 1024 := by omega
  -- the quotients and their defining inequalities
  have a1 : 1024 * (s * s / 2 ^ 10) ≤ s * s := by omega
  have a2 : s * s ≤ 1024 * (s * s / 2 ^ 10) + 1023 := by omega
  have c1 : 1024 * (t * t / 2 ^ 10) ≤ t * t := by omega
  have c2 : t * t ≤ 1024 * (t * t / 2 ^ 10) + 1023 := by omega
  generalize s * s / 2 ^ 10 = A at *
  generalize t * t / 2 ^ 10 = C at *
  have b1 : 1024 * (A * s / 2 ^ 10) ≤ A * s := by omega
  have b2 : A * s ≤ 1024 * (A * s / 2 ^ 10) + 1023 := by omega
  have d1 : 1024 * (C * t / 2 ^ 10) ≤ C * t := by omega
  have d2 : C * t ≤ 1024 * (C * t / 2 ^ 10) + 1023 := by omega
  generalize A * s / 2 ^ 10 = B at *
  generalize C * t / 2 ^ 10 = D at *
  have e1 : 1024 * (B * n0 / 2 ^ 10) ≤ B * n0 := by omega
  have e2 : B * n0 ≤ 1024 * (B * n0 / 2 ^ 10) + 1023 := by omega
  have f1 : 1048576 * (3 * A * t * n1 / 2 ^ 20) ≤ 3 * A * t * n1 := by omega
  have f2 : 3 * A * t * n1 ≤ 1048576 * (3 * A * t * n1 / 2 ^ 20) + 1048575 := by omega
  have g1 : 1048576 * (3 * s * C * n2 / 2 ^ 20) ≤ 3 * s * C * n2 := by omega
  have g2 : 3 * s * C * n2 ≤ 1048576 * (3 * s * C * n2 / 2 ^ 20) + 1048575 := by omega
  have i1 : 1024 * (D * n3 / 2 ^ 10) ≤ D * n3 := by omega
  have i2 : D * n3 ≤ 1024 * (D * n3 / 2 ^ 10) + 1023 := by omega
  generalize B * n0 / 2 ^ 10 = V1 at *
  generalize 3 * A * t * n1 / 2 ^ 20 = V2 at *
  generalize 3 * s * C * n2 / 2 ^ 20 = V3 at *
  generalize D * n3 / 2 ^ 10 = V4 at *
  -- products of the inequalities with the remaining factors
  have q0 : s * n0 ≤ 1024 * 1024 := Nat.mul_le_mul hs h0
  have q1 : t * n1 ≤ 1024 * 1024 := Nat.mul_le_mul ht h1
  have q2 : s * n2 ≤ 1024 * 1024 := Nat.mul_le_mul hs h2
  have q3 : t * n3 ≤ 1024 * 1024 := Nat.mul_le_mul ht h3
  have L1 := Nat.mul_le_mul_right n0 b1
  have L2 := Nat.mul_le_mul_right (s * n0) a1
  have L3 := Nat.mul_le_mul_right (t * n1) a1
  have L4 := Nat.mul_le_mul_right (s * n2) c1
  have L5 := Nat.mul_le_mul_right n3 d1
  have L6 := Nat.mul_le_mul_right (t * n3) c1
  have U1 := Nat.mul_le_mul_right n0 b2
  have U2 := Nat.mul_le_mul_right (s * n0) a2
  have U3 := Nat.mul_le_mul_right (t * n1) a2
  have U4 := Nat.mul_le_mul_right (s * n2) c2
  have U5 := Nat.mul_le_mul_right n3 d2
  have U6 := Nat.mul_le_mul_right (t * n3) c2
  constructor
  · linarith only [L1, L2, L3, L4, L5, L6, e1, f1, g1, i1]
  · linarith only [U1, U2, U3, U4, U5, U6, e2, f2, g2, i2, q0, q1, q2, q3, h0, h3]

/-- For `t` and control values in `[0, 1024]` the result of `lv_bezier3` is the
sum of the four truncated terms computed on natural numbers. -/
theorem lv_bezier3_eq (t : Nat) (u0 u1 u2 u3 : Int) (ht : t ≤ 1024)
    (h0 : 0 ≤ u0 ∧ u0 ≤ 1024) (h1 : 0 ≤ u1 ∧ u1 ≤ 1024) (h2 : 0 ≤ u2 ∧ u2 ≤ 1024)
    (h3 : 0 ≤ u3 ∧ u3 ≤ 1024) :
    lv_bezier3 t u0 u1 u2 u3 =
      (((1024 - t) * (1024 - t) / 2 ^ 10 * (1024 - t) / 2 ^ 10 * u0.toNat / 2 ^ 10
        + 3 * ((1024 - t) * (1024 - t) / 2 ^ 10) * t * u1.toNat / 2 ^ 20
        + 3 * (1024 - t) * (t * t / 2 ^ 10) * u2.toNat / 2 ^ 20
        + t * t / 2 ^ 10 * t / 2 ^ 10 * u3.toNat / 2 ^ 10 : Nat) : Int) := by
  have e0 : toU32 u0 = u0.toNat := by unfold toU32; omega
  have e1 : toU32 u1 = u1.toNat := by unfold toU32; omega
  have e2 : toU32 u2 = u2.toNat := by unfold toU32; omega
  have e3 : toU32 u3 = u3.toNat := by unfold toU32; omega
  have es : u32 (1024 + 2 ^ 32 - t) = 1024 - t := by unfold u32; omega
  obtain ⟨⟨p1, p2, p3, p4, p5, p6, p7, p8, p9, p10, p11, p12⟩, hsum⟩ :=
    bezier_core (1024 - t) t u0.toNat u1.toNat u2.toNat u3.toNat (by omega) (by omega)
      (by omega) (by omega) (by omega)
  generalize u0.toNat = n0 at *
  generalize u1.toNat = n1 at *
  generalize u2.toNat = n2 at *
  generalize u3.toNat = n3 at *
  generalize 1024 - t = s at *
  have q1 : (s * s / 2 ^ 10 * s / 2 ^ 10 * n0 / 2 ^ 10 + 3 * (s * s / 2 ^ 10) * t * n1 / 2 ^ 20)
      % 2 ^ 32 = s * s / 2 ^ 10 * s / 2 ^ 10 * n0 / 2 ^ 10 + 3 * (s * s / 2 ^ 10) * t * n1 / 2 ^ 20 :=
    Nat.mod_eq_of_lt (by omega)
  have q2 : (s * s / 2 ^ 10 * s / 2 ^ 10 * n0 / 2 ^ 10 + 3 * (s * s / 2 ^ 10) * t * n1 / 2 ^ 20
      + 3 * s * (t * t / 2 ^ 10) * n2 / 2 ^ 20) % 2 ^ 32 =
      s * s / 2 ^ 10 * s / 2 ^ 10 * n0 / 2 ^ 10 + 3 * (s * s / 2 ^ 10) * t * n1 / 2 ^ 20
      + 3 * s * (t * t / 2 ^ 10) * n2 / 2 ^ 20 :=
    Nat.mod_eq_of_lt (by omega)
  have q3 : (s * s / 2 ^ 10 * s / 2 ^ 10 * n0 / 2 ^ 10 + 3 * (s * s / 2 ^ 10) * t * n1 / 2 ^ 20
      + 3 * s * (t * t / 2 ^ 10) * n2 / 2 ^ 20 + t * t / 2 ^ 10 * t / 2 ^ 10 * n3 / 2 ^ 10)
      % 2 ^ 32 =
      s * s / 2 ^ 10 * s / 2 ^ 10 * n0 / 2 ^ 10 + 3 * (s * s / 2 ^ 10) * t * n1 / 2 ^ 20
      + 3 * s * (t * t / 2 ^ 10) * n2 / 2 ^ 20 + t * t / 2 ^ 10 * t / 2 ^ 10 * n3 / 2 ^ 10 :=
    Nat.mod_eq_of_lt (by omega)
  unfold lv_bezier3
  simp only [es, e0, e1, e2, e3]
  simp only [u32, Nat.shiftRight_eq_div_pow, Nat.mod_eq_of_lt p1, Nat.mod_eq_of_lt p2,
    Nat.mod_eq_of_lt p3, Nat.mod_eq_of_lt p4, Nat.mod_eq_of_lt p5, Nat.mod_eq_of_lt p6,
    Nat.mod_eq_of_lt p7, Nat.mod_eq_of_lt p8, Nat.mod_eq_of_lt p9, Nat.mod_eq_of_lt p10,
    Nat.mod_eq_of_lt p11, Nat.mod_eq_of_lt p12, q1, q2, q3]
  unfold toI32
  split <;> omega

/-- C21: for every `t` in `[0, 1024]` and control values `u0..u3` in
`[0, 1024]`, with the exact blend
`E = (1024-t)^3*u0 + 3*(1024-t)^2*t*u1 + 3*(1024-t)*t^2*u2 + t^3*u3` the result
`r` of `lv_bezier3` satisfies `2^30 * r ≤ E < 2^30 * (r + 14)`. -/
theorem lv_bezier3_from_below (t : Nat) (u0 u1 u2 u3 : Int) (ht : t ≤ 1024)
    (h0 : 0 ≤ u0 ∧ u0 ≤ 1024) (h1 : 0 ≤ u1 ∧ u1 ≤ 1024) (h2 : 0 ≤ u2 ∧ u2 ≤ 1024)
    (h3 : 0 ≤ u3 ∧ u3 ≤ 1024) :
    2 ^ 30 * lv_bezier3 t u0 u1 u2 u3 ≤
      (1024 - (t : Int)) ^ 3 * u0 + 3 * (1024 - (t : Int)) ^ 2 * (t : Int) * u1
        + 3 * (1024 - (t : Int)) * (t : Int) ^ 2 * u2 + (t : Int) ^ 3 * u3 ∧
    (1024 - (t : Int)) ^ 3 * u0 + 3 * (1024 - (t : Int)) ^ 2 * (t : Int) * u1
        + 3 * (1024 - (t : Int)) * (t : Int) ^ 2 * u2 + (t : Int) ^ 3 * u3 <
      2 ^ 30 * (lv_bezier3 t u0 u1 u2 u3 + 14) := by
  obtain ⟨hl, hu⟩ := bezier_error (1024 - t) t u0.toNat u1.toNat u2.toNat u3.toNat (by omega)
    (by omega) (by omega) (by omega) (by omega)
  rw [lv_bezier3_eq t u0 u1 u2 u3 ht h0 h1 h2 h3]
  have c0 : u0 = ((u0.toNat : Nat) : Int) := by omega
  have c1 : u1 = ((u1.toNat : Nat) : Int) := by omega
  have c2 : u2 = ((u2.toNat : Nat) : Int) := by omega
  have c3 : u3 = ((u3.toNat : Nat) : Int) := by omega
  have cs : (1024 : Int) - (t : Int) = ((1024 - t : Nat) : Int) := by omega
  generalize u0.toNat = n0 at *
  generalize u1.toNat = n1 at *
  generalize u2.toNat = n2 at *
  generalize u3.toNat = n3 at *
  generalize 1024 - t = s at *
  generalize s * s / 2 ^ 10 * s / 2 ^ 10 * n0 / 2 ^ 10 + 3 * (s * s / 2 ^ 10) * t * n1 / 2 ^ 20
      + 3 * s * (t * t / 2 ^ 10) * n2 / 2 ^ 20 + t * t / 2 ^ 10 * t / 2 ^ 10 * n3 / 2 ^ 10 = r
    at hl hu ⊢
  rw [c0, c1, c2, c3, cs]
  have hE : (s : Int) ^ 3 * (n0 : Int) + 3 * (s : Int) ^ 2 * (t : Int) * (n1 : Int)
      + 3 * (s : Int) * (t : Int) ^ 2 * (n2 : Int) + (t : Int) ^ 3 * (n3 : Int) =
      ((s * s * s * n0 + 3 * (s * s) * t * n1 + 3 * s * (t * t) * n2 + t * t * t * n3 : Nat)
        : Int) := by
    push_cast
    ring
  rw [hE]
  constructor
  · have : ((2 ^ 30 * r : Nat) : Int) ≤
        ((s * s * s * n0 + 3 * (s * s) * t * n1 + 3 * s * (t * t) * n2 + t * t * t * n3 : Nat)
          : Int) := by exact_mod_cast hl
    simpa using this
  · have : ((s * s * s * n0 + 3 * (s * s) * t * n1 + 3 * s * (t * t) * n2 + t * t * t * n3 : Nat)
        : Int) < ((2 ^ 30 * (r + 14) : Nat) : Int) := by exact_mod_cast hu
    simpa using this

/-- Witness of C21 at `t = 512` with control values 7, 1024, 7, 1024. -/
theorem lv_bezier3_from_below_witness :
    (512 ≤ 1024 ∧ ((0 : Int) ≤ 7 ∧ (7 : Int) ≤ 1024) ∧ ((0 : Int) ≤ 1024 ∧ (1024 : Int) ≤ 1024)) ∧
    2 ^ 30 * lv_bezier3 512 7 1024 7 1024 ≤
      (1024 - ((512 : Nat) : Int)) ^ 3 * 7 + 3 * (1024 - ((512 : Nat) : Int)) ^ 2
        * ((512 : Nat) : Int) * 1024
        + 3 * (1024 - ((512 : Nat) : Int)) * ((512 : Nat) : Int) ^ 2 * 7
        + ((512 : Nat) : Int) ^ 3 * 1024 ∧
    (1024 - ((512 : Nat) : Int)) ^ 3 * 7 + 3 * (1024 - ((512 : Nat) : Int)) ^ 2
        * ((512 : Nat) : Int) * 1024
        + 3 * (1024 - ((512 : Nat) : Int)) * ((512 : Nat) : Int) ^ 2 * 7
        + ((512 : Nat) : Int) ^ 3 * 1024 <
      2 ^ 30 * (lv_bezier3 512 7 1024 7 1024 + 14) :=
  ⟨by decide, lv_bezier3_from_below 512 7 1024 7 1024 (by decide) (by decide) (by decide)
    (by decide) (by decide)⟩

/-! ## Symmetries of `lv_atan2` -/

/-- Flipping both sign flags turns the result by 180 degrees modulo 360, for
each of the eight flag values and each ratio `0..45`. -/
theorem atan2_finish_opposite : ∀ f ∈ [0, 1, 2, 3, 16, 17, 18, 19], ∀ d : Fin 46,
    atan2_finish (f ^^^ 3) d.val % 360 = (atan2_finish f d.val + 180) % 360 := by
  decide

/-- The results on the axes: ratio 0 with one sign flag. -/
theorem atan2_finish_axes :
    atan2_finish 0 0 = 0 ∧ atan2_finish 2 0 = 180 ∧ atan2_finish 16 0 = 90 ∧
    atan2_finish 17 0 = 270 := by
  decide

/-- Exchanging the octant flag in the first quadrant gives the complement to 90. -/
theorem atan2_finish_mirror : ∀ d : Fin 46,
    atan2_finish 16 d.val + atan2_finish 0 d.val = 90 := by
  decide

/-- C22: for every pair `(x, y)` not both zero with `|x|, |y| ≤ 1456`,
`lv_atan2(-x, -y)` is congruent to `lv_atan2(x, y) + 180` modulo 360. -/
theorem lv_atan2_point_symmetric (x y : Int) (hx : -1456 ≤ x ∧ x ≤ 1456)
    (hy : -1456 ≤ y ∧ y ≤ 1456) (hnz : x ≠ 0 ∨ y ≠ 0) :
    ∃ d e, lv_atan2 x y = some d ∧ lv_atan2 (-x) (-y) = some e ∧
      e % 360 = (d + 180) % 360 := by
  have e1 := lv_atan2_eq x y hx hy hnz
  have e2 := lv_atan2_eq (-x) (-y) (by omega) (by omega) (by omega)
  have hq := atan2_quot_le x.natAbs y.natAbs
  simp only [Int.natAbs_neg] at e2
  refine ⟨_, _, e1, e2, ?_⟩
  by_cases hx0 : x = 0
  · subst hx0
    have hy0 : y ≠ 0 := by omega
    have hyn : ¬ (y.natAbs < 0) := by omega
    have hgt : ¬ (0 > y.natAbs) := by omega
    simp only [Int.natAbs_zero, hgt, if_false, Nat.zero_mul, Nat.zero_div, lt_irrefl,
      neg_zero, Nat.add_zero, Nat.zero_add]
    obtain ⟨a0, a2, _, _⟩ := atan2_finish_axes
    by_cases hyneg : y < 0
    · have h2 : ¬ (-y < 0) := by omega
      simp only [hyneg, h2, if_true, if_false, a0, a2]
    · have h2 : -y < 0 := by omega
      simp only [hyneg, h2, if_true, if_false, a0, a2]
  · by_cases hy0 : y = 0
    · subst hy0
      have hgt : x.natAbs > 0 := by omega
      simp only [Int.natAbs_zero, hgt, if_true, Nat.zero_mul, Nat.zero_div, lt_irrefl,
        neg_zero, if_false, Nat.add_zero]
      obtain ⟨_, _, a16, a17⟩ := atan2_finish_axes
      by_cases hxneg : x < 0
      · have h2 : ¬ (-x < 0) := by omega
        simp only [hxneg, h2, if_true, if_false, a16, a17]
      · have h2 : -x < 0 := by omega
        simp only [hxneg, h2, if_true, if_false, a16, a17]
    · generalize (if x.natAbs > y.natAbs then y.natAbs * 45 / x.natAbs
        else x.natAbs * 45 / y.natAbs) = q at hq
      have key : ∀ f ∈ [0, 1, 2, 3, 16, 17, 18, 19],
          atan2_finish (f ^^^ 3) q % 360 = (atan2_finish f q + 180) % 360 :=
        fun f hf => atan2_finish_opposite f hf ⟨q, by omega⟩
      by_cases hxneg : x < 0 <;> by_cases hyneg : y < 0 <;>
        by_cases hgt : x.natAbs > y.natAbs
      all_goals
        have hx2 : (-x < 0) ↔ ¬ (x < 0) := by omega
        have hy2 : (-y < 0) ↔ ¬ (y < 0) := by omega
        simp only [hx2, hy2, hxneg, hyneg, hgt, if_true, if_false, not_true_eq_false,
          not_false_eq_true]
      · exact key 19 (by decide)
      · exact key 3 (by decide)
      · exact key 17 (by decide)
      · exact key 1 (by decide)
      · exact key 18 (by decide)
      · exact key 2 (by decide)
      · exact key 16 (by decide)
      · exact key 0 (by decide)

/-- Witness of C22 at `(-1, 46)`, where `lv_atan2` returns 360. -/
theorem lv_atan2_point_symmetric_witness :
    (((-1456 : Int) ≤ -1 ∧ (-1 : Int) ≤ 1456) ∧ ((-1456 : Int) ≤ 46 ∧ (46 : Int) ≤ 1456) ∧
      ((-1 : Int) ≠ 0 ∨ (46 : Int) ≠ 0)) ∧
    ∃ d e, lv_atan2 (-1) 46 = some d ∧ lv_atan2 (-(-1)) (-46) = some e ∧
      e % 360 = (d + 180) % 360 :=
  ⟨by decide, lv_atan2_point_symmetric (-1) 46 (by decide) (by decide) (by decide)⟩

/-- C23: for all `x`, `y` with `0 ≤ x, y ≤ 1456`, not both zero,
`lv_atan2(x, y) + lv_atan2(y, x) == 90`; in particular `lv_atan2(x, x) == 45`. -/
theorem lv_atan2_mirror (x y : Int) (hx : 0 ≤ x ∧ x ≤ 1456) (hy : 0 ≤ y ∧ y ≤ 1456)
    (hnz : x ≠ 0 ∨ y ≠ 0) :
    ∃ d e, lv_atan2 x y = some d ∧ lv_atan2 y x = some e ∧ d + e = 90 ∧
      (x = y → d = 45) := by
  have e1 := lv_atan2_eq x y (by omega) (by omega) hnz
  have e2 := lv_atan2_eq y x (by omega) (by omega) (by omega)
  have hx1 : ¬ x < 0 := by omega
  have hy1 : ¬ y < 0 := by omega
  simp only [hx1, hy1, if_false, Nat.zero_add] at e1 e2
  refine ⟨_, _, e1, e2, ?_, ?_⟩
  · rcases Nat.lt_trichotomy x.natAbs y.natAbs with h | h | h
    · have h1 : ¬ x.natAbs > y.natAbs := by omega
      have h2 : y.natAbs > x.natAbs := h
      simp only [h1, h2, if_true, if_false]
      have hq : x.natAbs * 45 / y.natAbs ≤ 45 := by
        have := atan2_quot_le x.natAbs y.natAbs
        simpa only [h1, if_false] using this
      have := atan2_finish_mirror ⟨x.natAbs * 45 / y.natAbs, by omega⟩
      simp only at this
      omega
    · have h3 : ¬ y.natAbs > y.natAbs := by omega
      have hpos : 0 < y.natAbs := by omega
      simp only [h, h3, if_false, Nat.mul_div_cancel_left 45 hpos]
      decide
    · have h1 : x.natAbs > y.natAbs := h
      have h2 : ¬ y.natAbs > x.natAbs := by omega
      simp only [h1, h2, if_true, if_false]
      have hq : y.natAbs * 45 / x.natAbs ≤ 45 := by
        have := atan2_quot_le x.natAbs y.natAbs
        simpa only [h1, if_true] using this
      have := atan2_finish_mirror ⟨y.natAbs * 45 / x.natAbs, by omega⟩
      simp only at this
      omega
  · intro hxy
    subst hxy
    have hpos : 0 < x.natAbs := by omega
    have h1 : ¬ x.natAbs > x.natAbs := by omega
    simp only [h1, if_false, Nat.mul_div_cancel_left 45 hpos]
    decide

/-- Witness of C23 at `(3, 3)`. -/
theorem lv_atan2_mirror_witness :
    (((0 : Int) ≤ 3 ∧ (3 : Int) ≤ 1456) ∧ ((3 : Int) ≠ 0 ∨ (3 : Int) ≠ 0)) ∧
    ∃ d e, lv_atan2 3 3 = some d ∧ lv_atan2 3 3 = some e ∧ d + e = 90 ∧
      ((3 : Int) = 3 → d = 45) :=
  ⟨by decide, lv_atan2_mirror 3 3 (by decide) (by decide) (by decide)⟩

/-! ## Monotonicity of `lv_trigo_sin` -/

/-- Each step of one degree within `[-90, 90]` increases `lv_trigo_sin`. -/
theorem lv_trigo_sin_step : ∀ i : Fin 180,
    lv_trigo_sin ((i.val : Int) - 90) < lv_trigo_sin ((i.val : Int) - 90 + 1) := by
  decide

/-- Any number of steps of one degree within `[-90, 90]` increases `lv_trigo_sin`. -/
theorem lv_trigo_sin_steps : ∀ (n : Nat) (a : Int), -90 ≤ a → a + (n : Int) + 1 ≤ 90 →
    lv_trigo_sin a < lv_trigo_sin (a + (n : Int) + 1)
  | 0, a, h1, h2 => by
    have h := lv_trigo_sin_step ⟨(a + 90).toNat, by omega⟩
    have e : (((a + 90).toNat : Nat) : Int) - 90 = a := by omega
    simp only [e] at h
    simpa using h
  | n + 1, a, h1, h2 => by
    have ih := lv_trigo_sin_steps n a h1 (by omega)
    have h := lv_trigo_sin_step ⟨(a + (n : Int) + 1 + 90).toNat, by omega⟩
    have e : (((a + (n : Int) + 1 + 90).toNat : Nat) : Int) - 90 = a + (n : Int) + 1 := by omega
    simp only [e] at h
    have e2 : a + ((n + 1 : Nat) : Int) + 1 = a + (n : Int) + 1 + 1 := by omega
    rw [e2]
    exact lt_trans ih h

/-- The table `sin0_90_table` is strictly increasing. -/
theorem sin0_90_table_step : ∀ i : Fin 90,
    sin0_90_table.getD i.val 0 < sin0_90_table.getD (i.val + 1) 0 := by
  decide

/-- C24: `lv_trigo_sin` is strictly increasing on `[-90, 90]`: for all integer
angles `a`, `b` with `-90 ≤ a < b ≤ 90`, `lv_trigo_sin(a) < lv_trigo_sin(b)`;
and the 91-entry table is strictly increasing. -/
theorem lv_trigo_sin_strict_mono (a b : Int) (ha : -90 ≤ a) (hab : a < b) (hb : b ≤ 90) :
    lv_trigo_sin a < lv_trigo_sin b ∧
    ∀ k : Nat, k < 90 → sin0_90_table.getD k 0 < sin0_90_table.getD (k + 1) 0 := by
  have h := lv_trigo_sin_steps (b - a - 1).toNat a ha (by omega)
  have e : a + (((b - a - 1).toNat : Nat) : Int) + 1 = b := by omega
  rw [e] at h
  exact ⟨h, fun k hk => sin0_90_table_step ⟨k, hk⟩⟩

/-- Witness of C24 at `a = -90`, `b = 90`. -/
theorem lv_trigo_sin_strict_mono_witness :
    ((-90 : Int) ≤ -90 ∧ (-90 : Int) < 90 ∧ (90 : Int) ≤ 90) ∧
    lv_trigo_sin (-90) < lv_trigo_sin 90 ∧
    ∀ k : Nat, k < 90 → sin0_90_table.getD k 0 < sin0_90_table.getD (k + 1) 0 :=
  ⟨by decide, lv_trigo_sin_strict_mono (-90) 90 (by decide) (by decide) (by decide)⟩

/-! ## The value of the line meter stays within its range -/

/-- The setter `lv_lmeter_set_value` keeps the value within the range. -/
theorem lv_lmeter_set_value_in_range (ext : lv_lmeter_ext_t) (v : Int)
    (h : lmeter_in_range ext) : lmeter_in_range (lv_lmeter_set_value ext v) := by
  unfold lv_lmeter_set_value lmeter_in_range at *
  split
  · exact h
  · simp only
    split <;> split <;> omega

/-- The setter `lv_lmeter_set_value` writes `cur_value` only. -/
theorem lv_lmeter_set_value_fields (ext : lv_lmeter_ext_t) (v : Int) :
    (lv_lmeter_set_value ext v).min_value = ext.min_value ∧
    (lv_lmeter_set_value ext v).max_value = ext.max_value ∧
    (lv_lmeter_set_value ext v).line_cnt = ext.line_cnt ∧
    (lv_lmeter_set_value ext v).scale_angle = ext.scale_angle ∧
    (lv_lmeter_set_value ext v).angle_ofs = ext.angle_ofs := by
  unfold lv_lmeter_set_value
  split <;> simp

/-- The setter `lv_lmeter_set_range`, called with `min ≤ max`, leaves the value
within the new range. -/
theorem lv_lmeter_set_range_in_range (ext : lv_lmeter_ext_t) (lo hi : Int) (hle : lo ≤ hi)
    (h : lmeter_in_range ext) : lmeter_in_range (lv_lmeter_set_range ext lo hi) := by
  obtain ⟨mn, mx, cur, lc, sa, ao⟩ := ext
  unfold lv_lmeter_set_range
  split
  · exact h
  · unfold lmeter_in_range
    simp only [lv_lmeter_set_value, if_true]
    by_cases h1 : cur > hi
    · have h2 : ¬ hi < lo := by omega
      simp only [h1, if_true, h2, if_false]
      omega
    · simp only [h1, if_false]
      by_cases h3 : cur < lo
      · simp only [h3, if_true]
        omega
      · simp only [h3, if_false]
        omega

/-- Each well-formed call keeps the value within the range. -/
theorem lmeter_call_in_range (ext : lv_lmeter_ext_t) (c : LmeterCall) (hc : c.ok = true)
    (h : lmeter_in_range ext) : lmeter_in_range (lmeter_call ext c) := by
  cases c with
  | set_value v => exact lv_lmeter_set_value_in_range ext v h
  | set_range lo hi =>
    have hle : lo ≤ hi := by
      simp only [LmeterCall.ok, decide_eq_true_eq] at hc
      omega
    exact lv_lmeter_set_range_in_range ext lo hi hle h

/-- Each sequence of well-formed calls keeps the value within the range. -/
theorem lmeter_calls_in_range : ∀ (calls : List LmeterCall) (ext : lv_lmeter_ext_t),
    (∀ c ∈ calls, c.ok = true) → lmeter_in_range ext →
    lmeter_in_range (lmeter_calls ext calls)
  | [], _, _, h => h
  | c :: cs, ext, hok, h => by
    have h1 := lmeter_call_in_range ext c (hok c (List.mem_cons_self c cs)) h
    exact lmeter_calls_in_range cs (lmeter_call ext c)
      (fun d hd => hok d (List.mem_cons_of_mem c hd)) h1

/-- C25: from the state that `lv_lmeter_create` sets up (`min_value` 0,
`max_value` 100, `cur_value` 0), after any sequence of calls of
`lv_lmeter_set_value` and of `lv_lmeter_set_range` with `min ≤ max`, the state
has `min_value ≤ cur_value ≤ max_value`; and `lv_lmeter_set_value` changes
none of `min_value`, `max_value`, `line_cnt`, `scale_angle`, `angle_ofs`. -/
theorem lv_lmeter_value_invariant (calls : List LmeterCall) (hok : ∀ c ∈ calls, c.ok = true)
    (ext : lv_lmeter_ext_t) (v : Int) :
    (∃ ext0, lv_lmeter_create true true none = some ext0 ∧
      ext0.min_value = 0 ∧ ext0.max_value = 100 ∧ ext0.cur_value = 0 ∧
      (lmeter_calls ext0 calls).min_value ≤ (lmeter_calls ext0 calls).cur_value ∧
      (lmeter_calls ext0 calls).cur_value ≤ (lmeter_calls ext0 calls).max_value) ∧
    ((lv_lmeter_set_value ext v).min_value = ext.min_value ∧
     (lv_lmeter_set_value ext v).max_value = ext.max_value ∧
     (lv_lmeter_set_value ext v).line_cnt = ext.line_cnt ∧
     (lv_lmeter_set_value ext v).scale_angle = ext.scale_angle ∧
     (lv_lmeter_set_value ext v).angle_ofs = ext.angle_ofs) := by
  refine ⟨⟨_, rfl, rfl, rfl, rfl, ?_⟩, lv_lmeter_set_value_fields ext v⟩
  exact lmeter_calls_in_range calls _ hok ⟨by decide, by decide⟩

/-- Witness of C25 for the calls `set_value 500`, `set_range 200 300`,
`set_value (-7)`. -/
theorem lv_lmeter_value_invariant_witness :
    (∀ c ∈ [LmeterCall.set_value 500, LmeterCall.set_range 200 300, LmeterCall.set_value (-7)],
      c.ok = true) ∧
    ∃ ext0, lv_lmeter_create true true none = some ext0 ∧
      ext0.min_value = 0 ∧ ext0.max_value = 100 ∧ ext0.cur_value = 0 ∧
      (lmeter_calls ext0 [LmeterCall.set_value 500, LmeterCall.set_range 200 300,
        LmeterCall.set_value (-7)]).min_value ≤
      (lmeter_calls ext0 [LmeterCall.set_value 500, LmeterCall.set_range 200 300,
        LmeterCall.set_value (-7)]).cur_value ∧
      (lmeter_calls ext0 [LmeterCall.set_value 500, LmeterCall.set_range 200 300,
        LmeterCall.set_value (-7)]).cur_value ≤
      (lmeter_calls ext0 [LmeterCall.set_value 500, LmeterCall.set_range 200 300,
        LmeterCall.set_value (-7)]).max_value :=
  ⟨by decide,
   (lv_lmeter_value_invariant
      [LmeterCall.set_value 500, LmeterCall.set_range 200 300, LmeterCall.set_value (-7)]
      (by decide) ⟨0, 100, 0, 21, 240, 0⟩ 0).1⟩

end LvMath
